import Mathlib

/-
  Verification of the chartable-production interactive diagram pipeline.

  Shallow embedding of:
  * the server-side response normalizer
    (src/app/api/claude-diagram-generation/route.ts, lines 263-424),
  * the client-side tree layout
    (src/app/projects/[id]/interactiveEditor/components/PromptPanel.tsx,
     createDiagramFromResponse, lines 820-1160),
  * the interactive canvas controller (unnamed part_004: addNode,
    handleCanvasWheel, mouse handlers).

  JavaScript numbers are modelled as rationals (exact arithmetic); JS string
  truthiness is modelled as "nonempty string"; JS `Map` get/set is modelled by
  association lists where a `set` conses a pair in front (so the most recent
  binding is found first, matching Map.set overwrite semantics).
-/

namespace Chartable

/-- JS `a || b` on optional strings: an absent value and the empty string are
both falsy. -/
def jsStrOr (a : Option String) (b : String) : String :=
  match a with
  | some s => if s = "" then b else s
  | none => b

/-- First truthy value among two optional strings; `none` when all are absent
or empty. -/
def jsStrOr2 (b c : Option String) : Option String :=
  match b with
  | some s => if s = "" then (match c with
      | some t => if t = "" then none else some t
      | none => none) else some s
  | none =>
    match c with
    | some t => if t = "" then none else some t
    | none => none

/-- First truthy value among three optional strings (JS `a || b || c`). -/
def jsStrOr3 (a b c : Option String) : Option String :=
  match a with
  | some s => if s = "" then jsStrOr2 b c else some s
  | none => jsStrOr2 b c

/-- The regex test `/^\d+$/`: nonempty and all decimal digits. -/
def isAllDigits (s : String) : Bool :=
  s ≠ "" && s.data.all Char.isDigit

/-- JS `Map.get` over an association list where the most recent `set` is the
head of the list. -/
def mapGet (m : List (String × String)) (k : String) : Option String :=
  match m with
  | [] => none
  | p :: rest => if p.1 = k then some p.2 else mapGet rest k

/-! ## Response normalizer (route.ts lines 263-424)

The input `suggestions` object is modelled only as far as the normalizer
inspects it: a possibly-null value holding an optional `diagram` whose
`nodes` / `connections` fields are either arrays (of possibly-null entries)
or not arrays at all (`none`). -/

/-- A raw AI-supplied node; every field may be missing. -/
structure RawNode where
  id : Option String
  text : Option String
  type_ : Option String
deriving DecidableEq, Repr

/-- A raw AI-supplied connection; endpoint fields under any of the accepted
names. -/
structure RawConn where
  from_ : Option String
  sourceId : Option String
  source : Option String
  to_ : Option String
  targetId : Option String
  target : Option String
  label : Option String
deriving DecidableEq, Repr

/-- A normalized node as produced by the route (`safeNode`). -/
structure NormNode where
  id : String
  originalId : Option String
  text : String
  type_ : String
deriving DecidableEq, Repr

/-- A normalized connection as produced by the route (`safeConn`). -/
structure NormConn where
  id : String
  sourceId : String
  targetId : String
  originalSource : Option String
  originalTarget : Option String
  label : String
deriving DecidableEq, Repr

/-- The `diagram` field of a parsed response. `nodes = none` / `connections
= none` model "field missing or not an array" (the `Array.isArray` checks). -/
structure RawDiagram where
  nodes : Option (List (Option RawNode))
  connections : Option (List (Option RawConn))
deriving DecidableEq, Repr

/-- A normalized diagram. -/
structure NormDiagram where
  nodes : List NormNode
  connections : List NormConn
deriving DecidableEq, Repr

/-- Node normalization (route lines 289-313): drop null entries, then assign
sequential ids `node1`, `node2`, ... keeping the original id, with text and
type defaults. -/
def normalizeNodes (raw : List (Option RawNode)) : List NormNode :=
  (raw.filterMap id).enum.map fun p =>
    { id := "node" ++ toString (p.1 + 1)
      originalId := p.2.id
      text := jsStrOr p.2.text ("Node " ++ toString (p.1 + 1))
      type_ := jsStrOr p.2.type_ "process" }

/-- The originalId → new id map (route lines 316-321); entries with a falsy
original id are skipped, later entries shadow earlier ones. -/
def buildNodeIdMap (nodes : List NormNode) : List (String × String) :=
  nodes.foldl (fun m n =>
    match n.originalId with
    | some o => if o = "" then m else (o, n.id) :: m
    | none => m) []

/-- Source endpoint resolution (route lines 339-351).  `ids` is the set of new
node ids. -/
def resolveSource (idMap : List (String × String)) (ids : List String)
    (ep : Option String) : String :=
  match ep with
  | some s =>
    if h : (mapGet idMap s).isSome then (mapGet idMap s).get h
    else if isAllDigits s then "node" ++ s
    else if ids.contains s then s
    else "node1"
  | none => "node1"

/-- Target endpoint resolution (route lines 353-365): unresolved targets
default to `node2` when more than one node exists, else `node1`. -/
def resolveTarget (idMap : List (String × String)) (ids : List String)
    (nodeCount : Nat) (ep : Option String) : String :=
  match ep with
  | some s =>
    if h : (mapGet idMap s).isSome then (mapGet idMap s).get h
    else if isAllDigits s then "node" ++ s
    else if ids.contains s then s
    else if nodeCount > 1 then "node2"
    else "node1"
  | none => if nodeCount > 1 then "node2" else "node1"

/-- Connection normalization (route lines 327-378): drop null entries, read
endpoints from `from`/`sourceId`/`source` and `to`/`targetId`/`target`,
resolve them, and repackage as `safeConn`. -/
def normalizeConnections (nodes : List NormNode)
    (raw : List (Option RawConn)) : List NormConn :=
  let idMap := buildNodeIdMap nodes
  let ids := nodes.map (·.id)
  (raw.filterMap id).enum.map fun p =>
    let srcEp := jsStrOr3 p.2.from_ p.2.sourceId p.2.source
    let tgtEp := jsStrOr3 p.2.to_ p.2.targetId p.2.target
    { id := "conn" ++ toString (p.1 + 1)
      sourceId := resolveSource idMap ids srcEp
      targetId := resolveTarget idMap ids nodes.length tgtEp
      originalSource := srcEp
      originalTarget := tgtEp
      label := jsStrOr p.2.label "" }

/-- The synthesized linear chain (route lines 384-393): one connection
`node(i+1) → node(i+2)` for each `i < n-1`. -/
def chainConnections (n : Nat) : List NormConn :=
  (List.range (n - 1)).map fun i =>
    { id := "conn" ++ toString (i + 1)
      sourceId := "node" ++ toString (i + 1)
      targetId := "node" ++ toString (i + 2)
      originalSource := none
      originalTarget := none
      label := "" }

/-- The fixed 3-node fallback nodes (route lines 398-402). -/
def fallbackNodes : List NormNode :=
  [ { id := "node1", originalId := none, text := "Start", type_ := "start" },
    { id := "node2", originalId := none, text := "Process", type_ := "process" },
    { id := "node3", originalId := none, text := "End", type_ := "end" } ]

/-- The fixed fallback chain (route lines 404-407). -/
def fallbackConnections : List NormConn :=
  [ { id := "conn1", sourceId := "node1", targetId := "node2",
      originalSource := none, originalTarget := none, label := "Start" },
    { id := "conn2", sourceId := "node2", targetId := "node3",
      originalSource := none, originalTarget := none, label := "End" } ]

/-- Normalization of a diagram whose `nodes` field is an array (route lines
289-408, executed in source order: nodes, then connections or chain, then the
empty-nodes fallback). -/
def normalizeDiagram (rawNodes : List (Option RawNode))
    (rawConns : Option (List (Option RawConn))) : NormDiagram :=
  let nodes := normalizeNodes rawNodes
  let conns :=
    match rawConns with
    | some cs => normalizeConnections nodes cs
    | none => if nodes.length > 1 then chainConnections nodes.length else []
  if nodes.length = 0 then
    { nodes := fallbackNodes, connections := fallbackConnections }
  else
    { nodes := nodes, connections := conns }

/-- The parsed `suggestions` value, as far as the normalization block reads
it: either it has a `diagram` field or it does not. -/
structure Suggestions where
  diagram : Option RawDiagram
deriving DecidableEq, Repr

/-- The diagram part of the outgoing response: either the block was skipped
and the (possibly absent, possibly malformed) diagram passes through as-is,
or it ran and produced a normalized diagram. -/
inductive OutDiagram where
  | unprocessed (d : Option RawDiagram)
  | processed (d : NormDiagram)
deriving DecidableEq, Repr

/-- The normalization block guarded at route line 263: it runs only when
`suggestions` is non-null, has a `diagram`, and `diagram.nodes` is an array;
otherwise the suggestions object passes through untouched. -/
def processSuggestions (sugg : Option Suggestions) : OutDiagram :=
  match sugg with
  | none => OutDiagram.unprocessed none
  | some s =>
    match s.diagram with
    | none => OutDiagram.unprocessed none
    | some d =>
      match d.nodes with
      | none => OutDiagram.unprocessed (some d)
      | some rawNodes =>
        OutDiagram.processed (normalizeDiagram rawNodes d.connections)

/-! ## Tree layout (PromptPanel.tsx, createDiagramFromResponse lines 820-1160)

The layout receives the normalized diagram (`diagramData.nodes` /
`diagramData.connections`).  Null entries have been filtered upstream by the
route normalizer, so nodes and connections are modelled as plain records; JS
string truthiness (`node.id`, `conn.sourceId`, ... may be the empty string)
is modelled explicitly. -/

/-- A layout-input node (`id`, `text`, `type`). -/
structure LNode where
  id : String
  text : String
  type_ : String
deriving DecidableEq, Repr

/-- A layout-input connection. -/
structure LConn where
  sourceId : String
  targetId : String
  label : Option String
deriving DecidableEq, Repr

/-- An entry of the `nodeOutgoing` adjacency map (lines 840-845). -/
structure OutEntry where
  targetId : String
  label : String
deriving DecidableEq, Repr

/-- An entry of the `nodeIncoming` adjacency map (lines 847-852). -/
structure InEntry where
  sourceId : String
  label : String
deriving DecidableEq, Repr

/-- The `nodeOutgoing` map (lines 826-854) as a function: connections whose
source is `id` and whose endpoints are both truthy, in input order.  A lookup
of an id that was never written returns `[]`, matching `get(...) || []`. -/
def nodeOutgoing (conns : List LConn) (id : String) : List OutEntry :=
  (conns.filter fun c =>
    decide (c.sourceId ≠ "" ∧ c.targetId ≠ "" ∧ c.sourceId = id)).map fun c =>
      { targetId := c.targetId, label := jsStrOr c.label "" }

/-- The `nodeIncoming` map (lines 826-854) as a function. -/
def nodeIncoming (conns : List LConn) (id : String) : List InEntry :=
  (conns.filter fun c =>
    decide (c.sourceId ≠ "" ∧ c.targetId ≠ "" ∧ c.targetId = id)).map fun c =>
      { sourceId := c.sourceId, label := jsStrOr c.label "" }

/-- Root identification (lines 856-864): nodes with a truthy id and no
incoming connections; if none, the first node is forced to be the sole
root. -/
def rootNodesOf (nodes : List LNode) (conns : List LConn) : List String :=
  let rs := (nodes.filter fun n =>
    decide (n.id ≠ "" ∧ nodeIncoming conns n.id = [])).map (·.id)
  if rs = [] then
    match nodes with
    | [] => []
    | n :: _ => [n.id]
  else rs

/-- All connection endpoint ids; used only as the universe for the
termination measures of the two traversals below. -/
def connEndpointIds (conns : List LConn) : Finset String :=
  (conns.map (·.sourceId)).toFinset ∪ (conns.map (·.targetId)).toFinset

mutual

/-- The recursive leaf-descendant counter (lines 920-950).  `m` is the
`leafDescendants` map threaded through the computation (a `set` conses in
front); `visited` is the per-path cycle set (the JS code copies it for each
child branch, which persistent `Finset` values model exactly).  Totality of
this definition — well-founded on the unvisited endpoints — is the
termination property of the source function. -/
def countLeafDescendants (conns : List LConn) (nodeId : String)
    (visited : Finset String) (m : List (String × Nat)) :
    Nat × List (String × Nat) :=
  if hv : nodeId ∈ visited then (0, m)
  else
    if ho : nodeOutgoing conns nodeId = [] then (1, (nodeId, 1) :: m)
    else
      let r := countLeafChildren conns (nodeOutgoing conns nodeId)
        (insert nodeId visited) m
      let sum := if r.1 = 0 then 1 else r.1
      (sum, (nodeId, sum) :: r.2)
termination_by ((connEndpointIds conns \ visited).card, 0)
decreasing_by
  apply Prod.Lex.left
  have hmemU : nodeId ∈ connEndpointIds conns := by
    have hfil : conns.filter (fun c =>
        decide (c.sourceId ≠ "" ∧ c.targetId ≠ "" ∧ c.sourceId = nodeId)) ≠ [] := by
      intro hnil
      exact ho (by unfold nodeOutgoing; rw [hnil]; rfl)
    rcases List.exists_mem_of_ne_nil _ hfil with ⟨c, hc⟩
    rw [List.mem_filter] at hc
    have hp := of_decide_eq_true hc.2
    have : nodeId ∈ conns.map (·.sourceId) := by
      rcases hp with ⟨_, _, hsrc⟩
      exact hsrc ▸ List.mem_map_of_mem _ hc.1
    exact Finset.mem_union_left _ (List.mem_toFinset.mpr this)
  have hmem : nodeId ∈ connEndpointIds conns \ visited :=
    Finset.mem_sdiff.mpr ⟨hmemU, hv⟩
  have hsub : connEndpointIds conns \ insert nodeId visited ⊆
      connEndpointIds conns \ visited :=
    Finset.sdiff_subset_sdiff (le_refl _) (Finset.subset_insert _ _)
  apply Finset.card_lt_card
  exact (Finset.ssubset_iff_of_subset hsub).mpr ⟨nodeId, hmem, by simp⟩

/-- The `for (const conn of outgoing)` loop of lines 938-943, threading the
shared `leafDescendants` map left to right while giving each child branch the
same path set. -/
def countLeafChildren (conns : List LConn) (out : List OutEntry)
    (visited : Finset String) (m : List (String × Nat)) :
    Nat × List (String × Nat) :=
  match out with
  | [] => (0, m)
  | e :: rest =>
    let r1 := countLeafDescendants conns e.targetId visited m
    let r2 := countLeafChildren conns rest visited r1.2
    (r1.1 + r2.1, r2.2)
termination_by ((connEndpointIds conns \ visited).card, out.length)
decreasing_by
  · apply Prod.Lex.right
    simp
  · apply Prod.Lex.right
    simp

end

/-- JS `Map.get` on a `String → Nat` map whose most recent `set` is the list
head. -/
def lookupNat (m : List (String × Nat)) (k : String) : Option Nat :=
  match m with
  | [] => none
  | p :: rest => if p.1 = k then some p.2 else lookupNat rest k

/-- The full `leafDescendants` computation (lines 917-962): count from every
root with a fresh path set, then give every uncounted node weight 1. -/
def computeLeafDescendants (nodes : List LNode) (conns : List LConn) :
    List (String × Nat) :=
  let roots := rootNodesOf nodes conns
  let m := roots.foldl (fun m r => (countLeafDescendants conns r ∅ m).2) []
  nodes.foldl (fun m n =>
    if n.id ≠ "" ∧ (lookupNat m n.id) = none then (n.id, 1) :: m else m) m

/-- `levelNodes.get(level).push(id)` with `set(level, [])` on a missing key
(lines 884-888): append to the entry for `lvl`, creating it if absent. -/
def lnAppend (ln : List (Nat × List String)) (lvl : Nat) (id : String) :
    List (Nat × List String) :=
  match ln with
  | [] => [(lvl, [id])]
  | p :: rest =>
    if p.1 = lvl then (p.1, p.2 ++ [id]) :: rest else p :: lnAppend rest lvl id

/-- Lookup in the `levelNodes` map; a missing level reads as `[]`
(`levelNodes.get(level) || []`). -/
def lnGet (ln : List (Nat × List String)) (lvl : Nat) : List String :=
  match ln with
  | [] => []
  | p :: rest => if p.1 = lvl then p.2 else lnGet rest lvl

/-- Termination measure for the BFS queue loop: unvisited ids that can still
enter the queue, then the queue length. -/
def bfsMeasure (conns : List LConn) (queue : List (String × Nat))
    (visited : Finset String) : Nat × Nat :=
  ((((conns.map (·.targetId)).toFinset ∪ (queue.map (·.1)).toFinset) \ visited).card,
   queue.length)

/-- The level-assignment BFS loop (lines 875-896): first discovery wins; a
processed node records its level in `nodeLevels` (head of the list is the
most recent `set`) and is appended to its level's list in `levelNodes`;
children are enqueued one level deeper.  Returns `(nodeLevels, levelNodes,
visited)`. -/
def bfs (conns : List LConn) (queue : List (String × Nat))
    (visited : Finset String) (levels : List (String × Nat))
    (ln : List (Nat × List String)) :
    List (String × Nat) × List (Nat × List String) × Finset String :=
  match queue with
  | [] => (levels, ln, visited)
  | (id, lvl) :: rest =>
    if _hv : id ∈ visited then bfs conns rest visited levels ln
    else
      bfs conns
        (rest ++ (nodeOutgoing conns id).map fun e => (e.targetId, lvl + 1))
        (insert id visited) ((id, lvl) :: levels) (lnAppend ln lvl id)
termination_by bfsMeasure conns queue visited
decreasing_by
  · show Prod.Lex (· < ·) (· < ·) (bfsMeasure conns rest visited)
      (bfsMeasure conns ((id, lvl) :: rest) visited)
    have hsub : ((conns.map (·.targetId)).toFinset ∪ (rest.map (·.1)).toFinset) \ visited ⊆
        ((conns.map (·.targetId)).toFinset ∪ (((id, lvl) :: rest).map (·.1)).toFinset) \ visited := by
      apply Finset.sdiff_subset_sdiff _ (le_refl _)
      apply Finset.union_subset_union (le_refl _)
      intro x hx
      simp only [List.map_cons, List.toFinset_cons, Finset.mem_insert]
      exact Or.inr hx
    have hle := Finset.card_le_card hsub
    rcases lt_or_eq_of_le hle with hlt | heq
    · exact Prod.Lex.left _ _ hlt
    · rw [bfsMeasure, bfsMeasure, heq]
      exact Prod.Lex.right _ (by simp)
  · show Prod.Lex (· < ·) (· < ·)
      (bfsMeasure conns (rest ++ (nodeOutgoing conns id).map fun e => (e.targetId, lvl + 1)) (insert id visited))
      (bfsMeasure conns ((id, lvl) :: rest) visited)
    apply Prod.Lex.left
    apply Finset.card_lt_card
    rw [Finset.ssubset_iff_of_subset]
    · refine ⟨id, ?_, ?_⟩
      · apply Finset.mem_sdiff.mpr
        refine ⟨?_, _hv⟩
        apply Finset.mem_union_right
        simp
      · simp
    · intro x hx
      rcases Finset.mem_sdiff.mp hx with ⟨hxU, hxV⟩
      apply Finset.mem_sdiff.mpr
      constructor
      · rcases Finset.mem_union.mp hxU with hT | hQ
        · exact Finset.mem_union_left _ hT
        · rw [List.mem_toFinset, List.map_append, List.mem_append] at hQ
          rcases hQ with hR | hC
          · apply Finset.mem_union_right
            simp only [List.map_cons, List.toFinset_cons, Finset.mem_insert]
            exact Or.inr (List.mem_toFinset.mpr hR)
          · apply Finset.mem_union_left
            rw [List.map_map] at hC
            rcases List.mem_map.mp hC with ⟨e, he, hex⟩
            rcases List.mem_map.mp he with ⟨c, hc, hce⟩
            rw [List.mem_toFinset]
            apply List.mem_map.mpr
            refine ⟨c, List.mem_of_mem_filter hc, ?_⟩
            simp only [Function.comp] at hex
            rw [← hex, ← hce]
      · intro hxv
        exact hxV (Finset.mem_insert_of_mem hxv)

/-- `Math.max(...Array.from(nodeLevels.values()), 0)` (line 899). -/
def maxLevelOf (levels : List (String × Nat)) : Nat :=
  levels.foldl (fun a p => max a p.2) 0

/-- Level assignment with the unvisited fill-in (lines 866-910): run the BFS
from the roots at level 0, then place every node not visited (with a truthy
id) at `maxLevel + 1`. -/
def assignNodeLevels (nodes : List LNode) (conns : List LConn) :
    List (String × Nat) × List (Nat × List String) :=
  let roots := rootNodesOf nodes conns
  let r := bfs conns (roots.map fun id => (id, 0)) ∅ [] []
  let bottomLevel := maxLevelOf r.1 + 1
  nodes.foldl (fun st n =>
    if n.id ≠ "" ∧ n.id ∉ r.2.2 then
      ((n.id, bottomLevel) :: st.1, lnAppend st.2 bottomLevel n.id)
    else st)
    (r.1, r.2.1)

/-- Character-list version of JS `String.prototype.startsWith`. -/
def listStartsWith : List Char → List Char → Bool
  | _, [] => true
  | [], _ :: _ => false
  | a :: as_, b :: bs => a = b && listStartsWith as_ bs

/-- Character-list version of JS `String.prototype.includes`. -/
def listHasSeq : List Char → List Char → Bool
  | [], needle => listStartsWith [] needle
  | a :: t, needle => listStartsWith (a :: t) needle || listHasSeq t needle

/-- JS `hay.includes(needle)`. -/
def strIncludes (hay needle : String) : Bool :=
  listHasSeq hay.data needle.data

/-- JS `toLowerCase` restricted to the ASCII range (all labels the layout
inspects are ASCII), written over the character list so it reduces in the
kernel. -/
def strToLower (s : String) : String :=
  String.mk (s.data.map Char.toLower)

/-- The connection-label lookup for one child of a decision node (lines
1045-1049): the first outgoing connection of the parent that targets the
child, its label lowercased; no connection reads as the empty string. -/
def branchLabel (parentOutgoing : List OutEntry) (childId : String) : String :=
  match parentOutgoing.find? fun c => c.targetId == childId with
  | some c => strToLower c.label
  | none => ""

/-- A label that reads as the "yes" branch (line 1052): contains `yes` or
`true`. -/
def labelIsYes (s : String) : Bool :=
  strIncludes s "yes" || strIncludes s "true"

/-- A label that reads as the "no" branch (line 1053): contains `no` or
`false`. -/
def labelIsNo (s : String) : Bool :=
  strIncludes s "no" || strIncludes s "false"

/-- Decision-node two-child branch placement (lines 1037-1071): pick the
left/right children from the yes/no labels (default: first left, second
right), then place them `branchSpacing` apart centered on the parent's x,
where `branchSpacing = max(250, leftWeight*100 + rightWeight*100)`.
`leafW` is the `leafDescendants` map read as a function. -/
def positionDecisionBranches (childIds : String × String)
    (parentOutgoing : List OutEntry) (leafW : String → ℚ) (parentX : ℚ) :
    (String × ℚ) × (String × ℚ) :=
  let leftLabel := branchLabel parentOutgoing childIds.1
  let rightLabel := branchLabel parentOutgoing childIds.2
  let pair :=
    if labelIsYes leftLabel && labelIsNo rightLabel then
      (childIds.1, childIds.2)
    else if labelIsYes rightLabel && labelIsNo leftLabel then
      (childIds.2, childIds.1)
    else
      (childIds.1, childIds.2)
  let branchSpacing := max 250 (leafW pair.1 * 100 + leafW pair.2 * 100)
  ((pair.1, parentX - branchSpacing / 2), (pair.2, parentX + branchSpacing / 2))

/-! ## Interactive canvas (unnamed part_004)

Coordinates are rationals.  `Date.now()`/`Math.random()` id generation is
modelled by a fresh-counter supply. -/

/-- Node visual style fields set by `addNode`. -/
structure NodeStyle where
  backgroundColor : String
  borderColor : String
  textColor : String
  borderRadius : ℚ
deriving DecidableEq, Repr

/-- Connection style fields set on an interactively drawn connection
(lines 276-282). -/
structure ConnStyle where
  strokeColor : String
  strokeWidth : ℚ
  arrowType : String
  lineStyle : String
  cornerRadius : ℚ
deriving DecidableEq, Repr

/-- A canvas node element. -/
structure CanvasNode where
  id : String
  x : ℚ
  y : ℚ
  width : ℚ
  height : ℚ
  text : String
  style : Option NodeStyle
deriving DecidableEq, Repr

/-- A canvas connection element. -/
structure CanvasConn where
  id : String
  sourceId : String
  targetId : String
  style : ConnStyle
deriving DecidableEq, Repr

/-- An element of `canvasState.elements`. -/
inductive CanvasElem where
  | node (n : CanvasNode)
  | conn (c : CanvasConn)
deriving DecidableEq, Repr

/-- The screen-to-world transform the mouse handlers use throughout
(lines 173-174, 197-198, 407-408): canvas-relative position divided by the
scale, minus the view offset. -/
def screenToWorld (scale : ℚ) (view : ℚ × ℚ) (p : ℚ × ℚ) : ℚ × ℚ :=
  (p.1 / scale - view.1, p.2 / scale - view.2)

/-- Point-in-node hit test (lines 325-332). -/
def isPointInNode (x y : ℚ) (n : CanvasNode) : Bool :=
  decide (n.x ≤ x ∧ x ≤ n.x + n.width ∧ n.y ≤ y ∧ y ≤ n.y + n.height)

/-- First node element satisfying a predicate (`elements.find` filtered to
nodes). -/
def findNode (els : List CanvasElem) (p : CanvasNode → Bool) :
    Option CanvasNode :=
  match els with
  | [] => none
  | CanvasElem.node n :: rest => if p n then some n else findNode rest p
  | CanvasElem.conn _ :: rest => findNode rest p

/-- The default node style of `addNode` (lines 354-359). -/
def defaultNodeStyle (isDarkMode : Bool) : NodeStyle :=
  { backgroundColor := if isDarkMode then "#333333" else "#ffffff"
    borderColor := if isDarkMode then "#666666" else "#cccccc"
    textColor := if isDarkMode then "#ffffff" else "#333333"
    borderRadius := 5 }

/-- `addNode` (lines 341-392).  `rect` is the canvas bounding rectangle's
(width, height); `fresh` supplies the generated id.  On an empty canvas the
requested coordinates are replaced by the fixed viewport formula; on a
non-empty canvas the sentinel `(0, 0)` places the node below the lowest
node.  Returns the created node and the new element list. -/
def addNode (isDarkMode : Bool) (elements : List CanvasElem) (rect : ℚ × ℚ)
    (scale : ℚ) (view : ℚ × ℚ) (fresh : Nat) (x y : ℚ) (text : String)
    (style : Option NodeStyle) : CanvasNode × List CanvasElem :=
  let base : CanvasNode :=
    { id := "node-" ++ toString fresh, x := x, y := y, width := 150,
      height := 80, text := text,
      style := some (style.getD (defaultNodeStyle isDarkMode)) }
  let newNode :=
    if elements.length = 0 then
      { base with
        x := (rect.1 / 2 - 75) / scale - view.1
        y := (rect.2 / 3 - 40) / scale - view.2 }
    else
      let nodeElements := elements.filterMap fun e =>
        match e with
        | CanvasElem.node n => some n
        | CanvasElem.conn _ => none
      match nodeElements with
      | [] => base
      | n0 :: _ =>
        let lowestNode := nodeElements.foldl
          (fun lowest n =>
            if n.y + n.height > lowest.y + lowest.height then n else lowest) n0
        if x = 0 ∧ y = 0 then
          { base with x := lowestNode.x, y := lowestNode.y + lowestNode.height + 60 }
        else base
  (newNode, elements ++ [CanvasElem.node newNode])

/-- The viewport's center in world coordinates under the handlers' own
screen-to-world transform.  Modelled from the spec: the claim "the first
node is centered in the visible viewport" compares the node's center with
this point. -/
def viewportCenterWorld (rect : ℚ × ℚ) (scale : ℚ) (view : ℚ × ℚ) : ℚ × ℚ :=
  screenToWorld scale view (rect.1 / 2, rect.2 / 2)

/-- `handleCanvasWheel` (lines 395-424): `mouse` is the cursor position
relative to the canvas rectangle; returns the new scale and view offset. -/
def handleCanvasWheel (scale : ℚ) (view : ℚ × ℚ) (mouse : ℚ × ℚ)
    (deltaY : ℚ) : ℚ × (ℚ × ℚ) :=
  let mouseCanvasX := mouse.1 / scale - view.1
  let mouseCanvasY := mouse.2 / scale - view.2
  let zoomSpeed : ℚ := 1 / 20
  let delta := if deltaY > 0 then -zoomSpeed else zoomSpeed
  let newScale := max (1 / 10) (min 5 (scale + scale * delta))
  (newScale,
    (-(mouse.1 / newScale - mouseCanvasX), -(mouse.2 / newScale - mouseCanvasY)))

/-- The `connectionStart` record (line 115). -/
structure ConnStart where
  id : String
  x : ℚ
  y : ℚ
deriving DecidableEq, Repr

/-- The `currentConnection` record (lines 116-120). -/
structure CurrentConn where
  start : ConnStart
  endPos : ℚ × ℚ
  targetNodeId : Option String
deriving DecidableEq, Repr

/-- Which of the three connection handles a draw starts from
(lines 549-590). -/
inductive HandlePos where
  | top
  | bottom
  | right
deriving DecidableEq, Repr

/-- The editor component state touched by the pointer/wheel handlers. -/
structure EditorState where
  elements : List CanvasElem
  selectedElement : Option String
  isDraggingElement : Bool
  isDraggingCanvas : Bool
  isDrawingConnection : Bool
  connectionStart : Option ConnStart
  currentConnection : Option CurrentConn
  mousePosition : ℚ × ℚ
  viewPosition : ℚ × ℚ
  viewPositionStart : ℚ × ℚ
  mousePositionStart : ℚ × ℚ
  scale : ℚ
  fresh : Nat
  isDirty : Bool
  contextMenuPosition : Option (ℚ × ℚ)
deriving DecidableEq, Repr

/-- Pointer/wheel events reaching the canvas handlers.  `handleDown` is a
mouse-down on one of a node's three connection handles (it stops propagation,
so no `canvasDown` accompanies it). -/
inductive CEvent where
  | canvasDown (clientX clientY : ℚ) (button : Nat)
  | canvasMove (clientX clientY : ℚ)
  | canvasUp
  | handleDown (nodeId : String) (pos : HandlePos)
  | wheel (clientX clientY deltaY : ℚ)
deriving DecidableEq, Repr

/-- One step of the interaction controller: the five handlers of part_004
(`handleCanvasMouseDown` lines 160-192, `handleCanvasMouseMove` 194-263,
`handleCanvasMouseUp` 265-300, the handle `onMouseDown`s 549-590,
`handleCanvasWheel` 395-424).  `rectLeft`/`rectTop` locate the canvas
rectangle. -/
def step (rectLeft rectTop : ℚ) (isDarkMode : Bool) (s : EditorState)
    (e : CEvent) : EditorState :=
  match e with
  | CEvent.canvasDown cx cy button =>
    if button ≠ 0 then s
    else
      let s1 := if s.contextMenuPosition.isSome then
        { s with contextMenuPosition := none } else s
      let w := screenToWorld s.scale s.viewPosition (cx - rectLeft, cy - rectTop)
      match findNode s.elements (isPointInNode w.1 w.2) with
      | some n =>
        { s1 with selectedElement := some n.id, isDraggingElement := true }
      | none =>
        { s1 with selectedElement := none, isDraggingCanvas := true,
                  viewPositionStart := s.viewPosition,
                  mousePositionStart := (cx, cy) }
  | CEvent.canvasMove cx cy =>
    let w := screenToWorld s.scale s.viewPosition (cx - rectLeft, cy - rectTop)
    let s1 := { s with mousePosition := (cx - rectLeft, cy - rectTop) }
    if s.isDraggingElement ∧ s.selectedElement.isSome then
      match s.selectedElement with
      | none => s1
      | some sel =>
        match findNode s.elements (fun n => n.id == sel) with
        | none => s1
        | some _ =>
          { s1 with elements := s.elements.map fun el =>
              match el with
              | CanvasElem.node n =>
                if n.id = sel then CanvasElem.node { n with x := w.1, y := w.2 }
                else el
              | CanvasElem.conn _ => el }
    else if s.isDraggingCanvas then
      { s1 with viewPosition :=
          (s.viewPositionStart.1 - (s.mousePositionStart.1 - cx) / s.scale,
           s.viewPositionStart.2 - (s.mousePositionStart.2 - cy) / s.scale) }
    else if s.isDrawingConnection then
      match s.connectionStart with
      | none => s1
      | some cs =>
        match findNode s.elements
          (fun n => n.id != cs.id && isPointInNode w.1 w.2 n) with
        | some hn =>
          let cc : CurrentConn :=
            { start := cs, endPos := (hn.x + hn.width / 2, hn.y),
              targetNodeId := some hn.id }
          { s1 with currentConnection := some cc }
        | none =>
          let cc : CurrentConn :=
            { start := cs, endPos := w, targetNodeId := none }
          { s1 with currentConnection := some cc }
    else s1
  | CEvent.canvasUp =>
    let s1 :=
      if s.isDrawingConnection ∧ s.connectionStart.isSome ∧
          s.currentConnection.isSome then
        match s.connectionStart, s.currentConnection with
        | some cs, some cc =>
          let s2 :=
            match cc.targetNodeId with
            | some t =>
              let st : ConnStyle :=
                { strokeColor := if isDarkMode then "#94a3b8" else "#64748b",
                  strokeWidth := 2, arrowType := "triangle",
                  lineStyle := "orthogonal", cornerRadius := 12 }
              let newConn : CanvasConn :=
                { id := "connection-" ++ toString s.fresh,
                  sourceId := cs.id, targetId := t, style := st }
              { s with elements := s.elements ++ [CanvasElem.conn newConn],
                       fresh := s.fresh + 1, isDirty := true }
            | none => s
          { s2 with isDrawingConnection := false, currentConnection := none }
        | _, _ => s
      else s
    { s1 with isDraggingCanvas := false, isDraggingElement := false }
  | CEvent.handleDown nodeId pos =>
    match findNode s.elements (fun n => n.id == nodeId) with
    | none => s
    | some n =>
      let start :=
        match pos with
        | HandlePos.top => { id := n.id, x := n.x + n.width / 2, y := n.y : ConnStart }
        | HandlePos.bottom =>
          { id := n.id, x := n.x + n.width / 2, y := n.y + n.height : ConnStart }
        | HandlePos.right =>
          { id := n.id, x := n.x + n.width, y := n.y + n.height / 2 : ConnStart }
      { s with isDrawingConnection := true, connectionStart := some start }
  | CEvent.wheel cx cy deltaY =>
    let r := handleCanvasWheel s.scale s.viewPosition
      (cx - rectLeft, cy - rectTop) deltaY
    { s with scale := r.1, viewPosition := r.2 }

/-- Run a sequence of events through the controller. -/
def runEvents (rectLeft rectTop : ℚ) (isDarkMode : Bool) (s : EditorState)
    (evs : List CEvent) : EditorState :=
  evs.foldl (step rectLeft rectTop isDarkMode) s

/-- Every connection element has distinct endpoints. -/
def connsOk (els : List CanvasElem) : Bool :=
  els.all fun e =>
    match e with
    | CanvasElem.node _ => true
    | CanvasElem.conn c => c.sourceId != c.targetId

/-- Whether some connection element is a self-loop. -/
def hasSelfLoop (els : List CanvasElem) : Bool :=
  els.any fun e =>
    match e with
    | CanvasElem.node _ => false
    | CanvasElem.conn c => c.sourceId == c.targetId

/-- Controller-state invariant for the no-self-loop argument: when no draw
is active there is no pending `currentConnection`; a pending hover target
never names the current draw's start node; and all existing connections have
distinct endpoints. -/
def stateInv (s : EditorState) : Bool :=
  (!s.isDrawingConnection → s.currentConnection = none) &&
  (match s.currentConnection, s.connectionStart with
   | some cc, some cs =>
     match cc.targetNodeId with
     | some t => t != cs.id
     | none => true
   | _, _ => true) &&
  connsOk s.elements

/-- Trace restriction: a connection draw is never started while another is
in progress (each `handleDown` arrives with `isDrawingConnection` false). -/
def noMidDrawStarts (rectLeft rectTop : ℚ) (isDarkMode : Bool)
    (s : EditorState) (evs : List CEvent) : Bool :=
  match evs with
  | [] => true
  | e :: rest =>
    (match e with
     | CEvent.handleDown _ _ => !s.isDrawingConnection
     | _ => true) &&
    noMidDrawStarts rectLeft rectTop isDarkMode
      (step rectLeft rectTop isDarkMode s e) rest

/-- An initial editor state over a given element list: all interaction flags
clear (the component's `useState` initial values). -/
def initialState (els : List CanvasElem) : EditorState :=
  { elements := els, selectedElement := none, isDraggingElement := false,
    isDraggingCanvas := false, isDrawingConnection := false,
    connectionStart := none, currentConnection := none,
    mousePosition := (0, 0), viewPosition := (0, 0),
    viewPositionStart := (0, 0), mousePositionStart := (0, 0), scale := 1,
    fresh := 0, isDirty := false, contextMenuPosition := none }

/-- A concrete node used by the interaction-trace examples. -/
def exampleNodeA : CanvasNode :=
  { id := "A", x := 0, y := 0, width := 150, height := 80, text := "A",
    style := none }

/-- A second concrete node used by the interaction-trace examples. -/
def exampleNodeB : CanvasNode :=
  { id := "B", x := 300, y := 300, width := 150, height := 80, text := "B",
    style := none }

/-- The double-draw-start event trace: start a draw on A's bottom handle,
hover over B's body, start a new draw on B's top handle without the first
mouse-up being seen, then release. -/
def selfLoopTrace : List CEvent :=
  [CEvent.handleDown "A" HandlePos.bottom, CEvent.canvasMove 310 310,
   CEvent.handleDown "B" HandlePos.top, CEvent.canvasUp]

/-- An ordinary single draw: start on A's bottom handle, hover over B,
release. -/
def simpleDrawTrace : List CEvent :=
  [CEvent.handleDown "A" HandlePos.bottom, CEvent.canvasMove 310 310,
   CEvent.canvasUp]

/-! ## Helper lemmas -/

theorem mapGet_mem {m : List (String × String)} {k v : String}
    (h : mapGet m k = some v) : ∃ p ∈ m, p.2 = v := by
  induction m with
  | nil => simp [mapGet] at h
  | cons p rest ih =>
    rw [mapGet] at h
    by_cases hk : p.1 = k
    · rw [if_pos hk] at h
      exact ⟨p, List.mem_cons_self _ _, Option.some_inj.mp h⟩
    · rw [if_neg hk] at h
      rcases ih h with ⟨q, hq, hqv⟩
      exact ⟨q, List.mem_cons_of_mem _ hq, hqv⟩

theorem buildNodeIdMap_snd_mem (nodes : List NormNode) :
    ∀ p ∈ buildNodeIdMap nodes, p.2 ∈ nodes.map NormNode.id := by
  have aux : ∀ (l : List NormNode) (acc : List (String × String))
      (P : String → Prop),
      (∀ p ∈ acc, P p.2) → (∀ n ∈ l, P n.id) →
      ∀ p ∈ l.foldl (fun m n =>
        match n.originalId with
        | some o => if o = "" then m else (o, n.id) :: m
        | none => m) acc, P p.2 := by
    intro l
    induction l with
    | nil => intro acc P hacc _ p hp; exact hacc p hp
    | cons n rest ih =>
      intro acc P hacc hl p hp
      rw [List.foldl_cons] at hp
      refine ih _ P ?_ (fun x hx => hl x (List.mem_cons_of_mem _ hx)) p hp
      intro q hq
      rcases hno : n.originalId with _ | o <;> rw [hno] at hq <;> dsimp only at hq
      · exact hacc q hq
      · by_cases ho : o = ""
        · rw [if_pos ho] at hq
          exact hacc q hq
        · rw [if_neg ho] at hq
          rcases List.mem_cons.mp hq with hq1 | hq2
          · rw [hq1]
            exact hl n (List.mem_cons_self _ _)
          · exact hacc q hq2
  intro p hp
  exact aux nodes [] (fun v => v ∈ nodes.map NormNode.id)
    (by intro q hq; simp at hq)
    (fun n hn => List.mem_map_of_mem _ hn) p hp

theorem normalizeNodes_ids (raw : List (Option RawNode)) :
    (normalizeNodes raw).map NormNode.id =
      (List.range (raw.filterMap id).length).map
        (fun i => "node" ++ toString (i + 1)) := by
  unfold normalizeNodes
  rw [List.map_map]
  have h1 : (NormNode.id ∘ fun p : Nat × RawNode =>
      ({ id := "node" ++ toString (p.1 + 1)
         originalId := p.2.id
         text := jsStrOr p.2.text ("Node " ++ toString (p.1 + 1))
         type_ := jsStrOr p.2.type_ "process" } : NormNode)) =
      (fun i => "node" ++ toString (i + 1)) ∘ Prod.fst := rfl
  rw [h1, ← List.map_map, List.enum_map_fst]

theorem normalizeNodes_length (raw : List (Option RawNode)) :
    (normalizeNodes raw).length = (raw.filterMap id).length := by
  unfold normalizeNodes
  rw [List.length_map, List.enum_length]

theorem node_str_mem_ids (raw : List (Option RawNode)) (k : Nat)
    (h1 : 1 ≤ k) (h2 : k ≤ (raw.filterMap id).length) :
    "node" ++ toString k ∈ (normalizeNodes raw).map NormNode.id := by
  rw [normalizeNodes_ids]
  apply List.mem_map.mpr
  refine ⟨k - 1, List.mem_range.mpr (by omega), ?_⟩
  congr 1
  congr 1
  omega

/-- C2 helper: the source-resolution rule yields a known node id except
through the unchecked numeric rewrite. -/
theorem resolveSource_mem_or_numeric (idMap : List (String × String))
    (ids : List String) (ep : Option String)
    (hmap : ∀ s v, mapGet idMap s = some v → v ∈ ids)
    (h1 : "node1" ∈ ids) :
    resolveSource idMap ids ep ∈ ids ∨
      ∃ t, isAllDigits t = true ∧ resolveSource idMap ids ep = "node" ++ t := by
  unfold resolveSource
  rcases ep with _ | s <;> dsimp only
  · exact Or.inl h1
  · by_cases hm : (mapGet idMap s).isSome
    · rw [dif_pos hm]
      exact Or.inl (hmap s ((mapGet idMap s).get hm) (Option.some_get hm).symm)
    · rw [dif_neg hm]
      by_cases hd : isAllDigits s
      · rw [if_pos hd]
        exact Or.inr ⟨s, hd, rfl⟩
      · rw [if_neg hd]
        by_cases hc : ids.contains s
        · rw [if_pos hc]
          exact Or.inl (by simpa using hc)
        · rw [if_neg hc]
          exact Or.inl h1

/-- C2 helper: the target-resolution rule yields a known node id except
through the unchecked numeric rewrite. -/
theorem resolveTarget_mem_or_numeric (idMap : List (String × String))
    (ids : List String) (nodeCount : Nat) (ep : Option String)
    (hmap : ∀ s v, mapGet idMap s = some v → v ∈ ids)
    (h1 : "node1" ∈ ids) (h2 : nodeCount > 1 → "node2" ∈ ids) :
    resolveTarget idMap ids nodeCount ep ∈ ids ∨
      ∃ t, isAllDigits t = true ∧
        resolveTarget idMap ids nodeCount ep = "node" ++ t := by
  unfold resolveTarget
  rcases ep with _ | s <;> dsimp only
  · by_cases hn : nodeCount > 1
    · rw [if_pos hn]; exact Or.inl (h2 hn)
    · rw [if_neg hn]; exact Or.inl h1
  · by_cases hm : (mapGet idMap s).isSome
    · rw [dif_pos hm]
      exact Or.inl (hmap s ((mapGet idMap s).get hm) (Option.some_get hm).symm)
    · rw [dif_neg hm]
      by_cases hd : isAllDigits s
      · rw [if_pos hd]
        exact Or.inr ⟨s, hd, rfl⟩
      · rw [if_neg hd]
        by_cases hc : ids.contains s
        · rw [if_pos hc]
          exact Or.inl (by simpa using hc)
        · rw [if_neg hc]
          by_cases hn : nodeCount > 1
          · rw [if_pos hn]; exact Or.inl (h2 hn)
          · rw [if_neg hn]; exact Or.inl h1

/-! ## Claim theorems -/

/-- C1 (counterexample): normalizing an empty object (a parsed response with
no `diagram`) or `null` — and likewise a non-JSON string, whose parse-error
recovery object also has no `diagram` — does NOT substitute the 3-node
fallback diagram: the guard at route line 263 skips the whole block, so the
response keeps zero nodes. -/
theorem normalizer_skips_inputs_without_nodes_array :
    processSuggestions (some { diagram := none }) = OutDiagram.unprocessed none ∧
    processSuggestions none = OutDiagram.unprocessed none ∧
    processSuggestions (some { diagram := none }) ≠
      OutDiagram.processed { nodes := fallbackNodes, connections := fallbackConnections } ∧
    processSuggestions none ≠
      OutDiagram.processed { nodes := fallbackNodes, connections := fallbackConnections } := by
  refine ⟨rfl, rfl, ?_, ?_⟩ <;> decide

/-- C1 (amended): the fixed 3-node start/process/end fallback with its single
two-connection chain is substituted exactly when the response does carry a
`diagram.nodes` array and zero nodes survive normalization; inputs without
such an array (empty object, null, unparseable text) bypass the block
entirely and receive no fallback. -/
theorem normalizer_fallback_on_empty_nodes
    (rawNodes : List (Option RawNode))
    (rawConns : Option (List (Option RawConn)))
    (h : ∀ x ∈ rawNodes, x = none) :
    processSuggestions
        (some { diagram := some { nodes := some rawNodes, connections := rawConns } }) =
      OutDiagram.processed { nodes := fallbackNodes, connections := fallbackConnections } := by
  have hnil : rawNodes.filterMap id = [] := by
    apply List.filterMap_eq_nil_iff.mpr
    intro a ha
    rw [h a ha]
    rfl
  have hnodes : normalizeNodes rawNodes = [] := by
    unfold normalizeNodes
    rw [hnil]
    rfl
  show OutDiagram.processed (normalizeDiagram rawNodes rawConns) =
    OutDiagram.processed { nodes := fallbackNodes, connections := fallbackConnections }
  unfold normalizeDiagram
  rw [hnodes]
  rfl

/-- C1 witness: a nodes array holding a single null entry receives the
fallback. -/
theorem normalizer_fallback_on_empty_nodes_witness :
    processSuggestions
        (some { diagram := some { nodes := some [none], connections := none } }) =
      OutDiagram.processed { nodes := fallbackNodes, connections := fallbackConnections } :=
  normalizer_fallback_on_empty_nodes [none] none (by
    intro x hx
    simpa using hx)

/-- C2 (counterexample): with a single node (new id `node1`) and a connection
whose source endpoint is the numeral `"2"`, the numeric rewrite produces
`sourceId = "node2"`, which is not an id of any normalized node — a dangling
reference enters the model, contradicting the claim. -/
theorem numeric_endpoint_dangles :
    (normalizeDiagram [some { id := some "a", text := none, type_ := none }]
        (some [some { from_ := some "2", sourceId := none, source := none,
                      to_ := none, targetId := none, target := none,
                      label := none }])).connections.map NormConn.sourceId =
      ["node2"] ∧
    (normalizeDiagram [some { id := some "a", text := none, type_ := none }]
        (some [some { from_ := some "2", sourceId := none, source := none,
                      to_ := none, targetId := none, target := none,
                      label := none }])).nodes.map NormNode.id = ["node1"] ∧
    "node2" ∉
      (normalizeDiagram [some { id := some "a", text := none, type_ := none }]
        (some [some { from_ := some "2", sourceId := none, source := none,
                      to_ := none, targetId := none, target := none,
                      label := none }])).nodes.map NormNode.id := by
  refine ⟨?_, ?_, ?_⟩ <;> decide

/-- C2 (amended): for every connection that survives normalization, each
endpoint is either an id of a normalized node (via the original-id remap, a
literal new id, or the node1/node2 defaults) or is `node<digits>` produced by
the unchecked numeric rewrite — the numeric rewrite is interpreted as a
1-based index but is not range-checked, so it is the one way a dangling
reference enters the model. -/
theorem connection_endpoints_resolve_or_numeric
    (rawNodes : List (Option RawNode)) (rawConns : List (Option RawConn))
    (hne : normalizeNodes rawNodes ≠ []) :
    ∀ c ∈ (normalizeDiagram rawNodes (some rawConns)).connections,
      (c.sourceId ∈ (normalizeDiagram rawNodes (some rawConns)).nodes.map NormNode.id ∨
        ∃ t, isAllDigits t = true ∧ c.sourceId = "node" ++ t) ∧
      (c.targetId ∈ (normalizeDiagram rawNodes (some rawConns)).nodes.map NormNode.id ∨
        ∃ t, isAllDigits t = true ∧ c.targetId = "node" ++ t) := by
  have hlen : ¬ (normalizeNodes rawNodes).length = 0 := by
    simpa [List.length_eq_zero] using hne
  have hd : normalizeDiagram rawNodes (some rawConns) =
      { nodes := normalizeNodes rawNodes,
        connections := normalizeConnections (normalizeNodes rawNodes) rawConns } := by
    unfold normalizeDiagram
    rw [if_neg hlen]
  rw [hd]
  dsimp only
  have hlen1 : 1 ≤ (rawNodes.filterMap id).length := by
    rw [← normalizeNodes_length]
    omega
  intro c hc
  have hmap : ∀ s v,
      mapGet (buildNodeIdMap (normalizeNodes rawNodes)) s = some v →
      v ∈ (normalizeNodes rawNodes).map NormNode.id := by
    intro s v hsv
    rcases mapGet_mem hsv with ⟨p, hp, hpv⟩
    exact hpv ▸ buildNodeIdMap_snd_mem _ p hp
  have h1 : "node1" ∈ (normalizeNodes rawNodes).map NormNode.id := by
    have := node_str_mem_ids rawNodes 1 (le_refl 1) hlen1
    simpa using this
  have h2 : (normalizeNodes rawNodes).length > 1 →
      "node2" ∈ (normalizeNodes rawNodes).map NormNode.id := by
    intro hgt
    have hlen2 : 2 ≤ (rawNodes.filterMap id).length := by
      rw [← normalizeNodes_length]
      omega
    have := node_str_mem_ids rawNodes 2 (by omega) hlen2
    simpa using this
  simp only [normalizeConnections] at hc
  rcases List.mem_map.mp hc with ⟨p, _, hpc⟩
  rw [← hpc]
  dsimp only
  constructor
  · exact resolveSource_mem_or_numeric _ _ _ hmap h1
  · exact resolveTarget_mem_or_numeric _ _ _ _ hmap h1 h2

/-- C2 witness: with one node of original id `"a"` and a connection
`from: "a"`, the remapped source endpoint is the id of a normalized node. -/
theorem connection_endpoints_resolve_witness :
    "node1" ∈
      (normalizeDiagram [some { id := some "a", text := none, type_ := none }]
        (some [some { from_ := some "a", sourceId := none, source := none,
                      to_ := none, targetId := none, target := none,
                      label := none }])).nodes.map NormNode.id ∧
    (normalizeDiagram [some { id := some "a", text := none, type_ := none }]
        (some [some { from_ := some "a", sourceId := none, source := none,
                      to_ := none, targetId := none, target := none,
                      label := none }])).connections.map NormConn.sourceId =
      ["node1"] := by
  constructor
  · have h := connection_endpoints_resolve_or_numeric
      [some { id := some "a", text := none, type_ := none }]
      [some { from_ := some "a", sourceId := none, source := none,
              to_ := none, targetId := none, target := none, label := none }]
      (by decide)
    have h1 := h
      { id := "conn1", sourceId := "node1", targetId := "node1",
        originalSource := some "a", originalTarget := none, label := "" }
      (by decide)
    rcases h1.1 with hin | hnum
    · exact hin
    · decide
  · decide

/-- C6 (counterexample): two nodes survive and the `connections` field is an
empty array — zero connections survive normalization, yet no fallback chain
is synthesized (the chain is only built when `connections` is not an array at
all), contradicting the claim. -/
theorem empty_connections_array_no_chain :
    (normalizeDiagram
        [some { id := some "x", text := none, type_ := none },
         some { id := some "y", text := none, type_ := none }]
        (some [])).nodes.length = 2 ∧
    (normalizeDiagram
        [some { id := some "x", text := none, type_ := none },
         some { id := some "y", text := none, type_ := none }]
        (some [])).connections = [] := by
  constructor <;> decide

/-- C6 (amended): the fallback linear chain `node1 → node2 → ... → nodeN` is
synthesized exactly when the `connections` field is missing (not an array)
and at least two nodes survive: it then has one connection per consecutive
node pair, covering all nodes in sequence. -/
theorem chain_synthesized_when_connections_missing
    (rawNodes : List (Option RawNode))
    (h2 : 1 < (normalizeNodes rawNodes).length) :
    (normalizeDiagram rawNodes none).nodes = normalizeNodes rawNodes ∧
    (normalizeDiagram rawNodes none).connections.length =
      (normalizeDiagram rawNodes none).nodes.length - 1 ∧
    ∀ i, i < (normalizeDiagram rawNodes none).connections.length →
      ((normalizeDiagram rawNodes none).connections[i]?.map NormConn.sourceId =
        (normalizeDiagram rawNodes none).nodes[i]?.map NormNode.id ∧
       (normalizeDiagram rawNodes none).connections[i]?.map NormConn.targetId =
        (normalizeDiagram rawNodes none).nodes[i+1]?.map NormNode.id) := by
  have hlen : ¬ (normalizeNodes rawNodes).length = 0 := by omega
  have hd : normalizeDiagram rawNodes none =
      { nodes := normalizeNodes rawNodes,
        connections := chainConnections (normalizeNodes rawNodes).length } := by
    simp only [normalizeDiagram]
    rw [if_neg hlen, if_pos h2]
  rw [hd]
  refine ⟨rfl, ?_, ?_⟩
  · simp [chainConnections]
  · intro i hi
    have hclen : (chainConnections (normalizeNodes rawNodes).length).length =
        (normalizeNodes rawNodes).length - 1 := by
      simp [chainConnections]
    rw [hclen] at hi
    have hconn : (chainConnections (normalizeNodes rawNodes).length)[i]? =
        some { id := "conn" ++ toString (i + 1)
               sourceId := "node" ++ toString (i + 1)
               targetId := "node" ++ toString (i + 2)
               originalSource := none
               originalTarget := none
               label := "" } := by
      unfold chainConnections
      rw [List.getElem?_map, List.getElem?_range hi]
      rfl
    have hids := normalizeNodes_ids rawNodes
    have hnlen := normalizeNodes_length rawNodes
    have hnode : ∀ j, j < (normalizeNodes rawNodes).length →
        (normalizeNodes rawNodes)[j]?.map NormNode.id =
          some ("node" ++ toString (j + 1)) := by
      intro j hj
      have : ((normalizeNodes rawNodes).map NormNode.id)[j]? =
          some ("node" ++ toString (j + 1)) := by
        rw [hids, List.getElem?_map, List.getElem?_range (by omega)]
        rfl
      rw [List.getElem?_map] at this
      exact this
    constructor
    · rw [hconn, hnode i (by omega)]
      rfl
    · rw [hconn, hnode (i + 1) (by omega)]
      rfl

/-- C6 witness: two surviving nodes and a missing connections field yield the
one-connection chain `node1 → node2`. -/
theorem chain_synthesized_witness :
    (normalizeDiagram
        [some { id := some "x", text := none, type_ := none },
         some { id := some "y", text := none, type_ := none }] none).connections.length =
      (normalizeDiagram
        [some { id := some "x", text := none, type_ := none },
         some { id := some "y", text := none, type_ := none }] none).nodes.length - 1 ∧
    (normalizeDiagram
        [some { id := some "x", text := none, type_ := none },
         some { id := some "y", text := none, type_ := none }] none).connections[0]?.map
        NormConn.sourceId =
      (normalizeDiagram
        [some { id := some "x", text := none, type_ := none },
         some { id := some "y", text := none, type_ := none }] none).nodes[0]?.map
        NormNode.id := by
  have h := chain_synthesized_when_connections_missing
    [some { id := some "x", text := none, type_ := none },
     some { id := some "y", text := none, type_ := none }] (by decide)
  exact ⟨h.2.1, (h.2.2 0 (by decide)).1⟩

end Chartable
namespace Chartable

theorem countLeaf_map_good (conns : List LConn) (nodeId : String)
    (visited : Finset String) (m : List (String × Nat)) :
    (∀ p ∈ m, 0 < p.2 ∧ (nodeOutgoing conns p.1 = [] → p.2 = 1)) →
    ∀ p ∈ (countLeafDescendants conns nodeId visited m).2,
      0 < p.2 ∧ (nodeOutgoing conns p.1 = [] → p.2 = 1) := by
  refine countLeafDescendants.induct conns
    (fun nodeId visited m =>
      (∀ p ∈ m, 0 < p.2 ∧ (nodeOutgoing conns p.1 = [] → p.2 = 1)) →
      ∀ p ∈ (countLeafDescendants conns nodeId visited m).2,
        0 < p.2 ∧ (nodeOutgoing conns p.1 = [] → p.2 = 1))
    (fun out visited m =>
      (∀ p ∈ m, 0 < p.2 ∧ (nodeOutgoing conns p.1 = [] → p.2 = 1)) →
      ∀ p ∈ (countLeafChildren conns out visited m).2,
        0 < p.2 ∧ (nodeOutgoing conns p.1 = [] → p.2 = 1))
    ?_ ?_ ?_ ?_ ?_ nodeId visited m
  · intro nodeId visited m hv hm
    rw [countLeafDescendants, dif_pos hv]
    exact hm
  · intro nodeId visited m hv ho hm p hp
    rw [countLeafDescendants, dif_neg hv, dif_pos ho] at hp
    rcases List.mem_cons.mp hp with h1 | h2
    · rw [h1]
      exact ⟨Nat.one_pos, fun _ => rfl⟩
    · exact hm p h2
  · intro nodeId visited m hv ho ih hm p hp
    rw [countLeafDescendants, dif_neg hv, dif_neg ho] at hp
    dsimp only at hp
    rcases List.mem_cons.mp hp with h1 | h2
    · rw [h1]
      refine ⟨?_, fun hcon => absurd hcon ho⟩
      dsimp only
      split
      · exact Nat.one_pos
      · omega
    · exact ih hm p h2
  · intro visited m hm p hp
    rw [countLeafChildren.eq_def] at hp
    exact hm p hp
  · intro visited m e rest r1 ih1 ih2 hm p hp
    rw [countLeafChildren.eq_def] at hp
    dsimp only at hp
    exact ih2 (ih1 hm) p hp

end Chartable
namespace Chartable

theorem lookupNat_mem {m : List (String × Nat)} {k : String} {v : Nat}
    (h : lookupNat m k = some v) : (k, v) ∈ m := by
  induction m with
  | nil => simp [lookupNat] at h
  | cons p rest ih =>
    rw [lookupNat] at h
    by_cases hk : p.1 = k
    · rw [if_pos hk] at h
      have : p = (k, v) := by
        rcases p with ⟨a, b⟩
        simp at hk
        simp at h
        rw [hk, h]
      rw [← this]
      exact List.mem_cons_self _ _
    · rw [if_neg hk] at h
      exact List.mem_cons_of_mem _ (ih h)

theorem lookupNat_isSome_cons (p : String × Nat) (m : List (String × Nat))
    (k : String) (h : (lookupNat m k).isSome) :
    (lookupNat (p :: m) k).isSome := by
  rw [lookupNat]
  by_cases hk : p.1 = k
  · rw [if_pos hk]
    rfl
  · rw [if_neg hk]
    exact h

theorem fillFold_isSome_mono (l : List LNode)
    (m : List (String × Nat)) (k : String) (h : (lookupNat m k).isSome) :
    (lookupNat (l.foldl (fun m n =>
      if n.id ≠ "" ∧ (lookupNat m n.id) = none then (n.id, 1) :: m else m) m) k).isSome := by
  induction l generalizing m with
  | nil => exact h
  | cons n rest ih =>
    rw [List.foldl_cons]
    apply ih
    by_cases hc : n.id ≠ "" ∧ (lookupNat m n.id) = none
    · rw [if_pos hc]
      exact lookupNat_isSome_cons _ _ _ h
    · rw [if_neg hc]
      exact h

theorem fillFold_covers (l : List LNode)
    (m : List (String × Nat)) (n : LNode) (hn : n ∈ l) (hid : n.id ≠ "") :
    (lookupNat (l.foldl (fun m n =>
      if n.id ≠ "" ∧ (lookupNat m n.id) = none then (n.id, 1) :: m else m) m) n.id).isSome := by
  induction l generalizing m with
  | nil => simp at hn
  | cons a rest ih =>
    rw [List.foldl_cons]
    rcases List.mem_cons.mp hn with h1 | h2
    · subst h1
      apply fillFold_isSome_mono
      show (lookupNat (if n.id ≠ "" ∧ lookupNat m n.id = none then (n.id, 1) :: m else m) n.id).isSome
      by_cases hc : n.id ≠ "" ∧ (lookupNat m n.id) = none
      · rw [if_pos hc, lookupNat, if_pos rfl]
        rfl
      · rw [if_neg hc]
        push_neg at hc
        rw [← Option.ne_none_iff_isSome]
        exact hc hid
    · exact ih _ h2


/-- C3: for every node/connection list — cyclic graphs included, on which the
well-founded `countLeafDescendants` recursion still terminates (its totality
is exactly the termination property) — the computed leaf-weight map records a
value for every node with a truthy id, every recorded value is a positive
integer, and a node with no outgoing connections gets weight 1. -/
theorem leaf_weights_positive (nodes : List LNode) (conns : List LConn)
    (n : LNode) (hn : n ∈ nodes) (hid : n.id ≠ "") :
    lookupNat (computeLeafDescendants nodes conns) n.id ≠ none ∧
    0 < (lookupNat (computeLeafDescendants nodes conns) n.id).getD 0 ∧
    (nodeOutgoing conns n.id = [] →
      (lookupNat (computeLeafDescendants nodes conns) n.id).getD 0 = 1) := by
  have hgood0 : ∀ (roots : List String) (m : List (String × Nat)),
      (∀ p ∈ m, 0 < p.2 ∧ (nodeOutgoing conns p.1 = [] → p.2 = 1)) →
      ∀ p ∈ roots.foldl (fun m r => (countLeafDescendants conns r ∅ m).2) m,
        0 < p.2 ∧ (nodeOutgoing conns p.1 = [] → p.2 = 1) := by
    intro roots
    induction roots with
    | nil => intro m hm; exact hm
    | cons r rest ih =>
      intro m hm
      rw [List.foldl_cons]
      exact ih _ (countLeaf_map_good conns r ∅ m hm)
  have hgoodFill : ∀ (l : List LNode) (m : List (String × Nat)),
      (∀ p ∈ m, 0 < p.2 ∧ (nodeOutgoing conns p.1 = [] → p.2 = 1)) →
      ∀ p ∈ l.foldl (fun m n =>
        if n.id ≠ "" ∧ (lookupNat m n.id) = none then (n.id, 1) :: m else m) m,
        0 < p.2 ∧ (nodeOutgoing conns p.1 = [] → p.2 = 1) := by
    intro l
    induction l with
    | nil => intro m hm; exact hm
    | cons a rest ih =>
      intro m hm
      rw [List.foldl_cons]
      apply ih
      by_cases hc : a.id ≠ "" ∧ (lookupNat m a.id) = none
      · rw [if_pos hc]
        intro p hp
        rcases List.mem_cons.mp hp with h1 | h2
        · rw [h1]
          exact ⟨Nat.one_pos, fun _ => rfl⟩
        · exact hm p h2
      · rw [if_neg hc]
        exact hm
  have hgood : ∀ p ∈ computeLeafDescendants nodes conns,
      0 < p.2 ∧ (nodeOutgoing conns p.1 = [] → p.2 = 1) := by
    unfold computeLeafDescendants
    apply hgoodFill
    apply hgood0
    intro p hp
    simp at hp
  have hsome : (lookupNat (computeLeafDescendants nodes conns) n.id).isSome := by
    unfold computeLeafDescendants
    exact fillFold_covers nodes _ n hn hid
  rcases Option.isSome_iff_exists.mp hsome with ⟨w, hw⟩
  have hmem := lookupNat_mem hw
  have hg := hgood _ hmem
  rw [hw]
  refine ⟨by simp, ?_, ?_⟩
  · simpa using hg.1
  · intro hout
    simpa using hg.2 hout

/-- C3 witness: on the 3-cycle A → B → C → A every node's recorded
leaf-weight is the positive integer 1. -/
theorem leaf_weights_positive_witness :
    lookupNat (computeLeafDescendants
      [{ id := "A", text := "a", type_ := "process" },
       { id := "B", text := "b", type_ := "process" },
       { id := "C", text := "c", type_ := "process" }]
      [{ sourceId := "A", targetId := "B", label := none },
       { sourceId := "B", targetId := "C", label := none },
       { sourceId := "C", targetId := "A", label := none }]) "A" ≠ none ∧
    0 < (lookupNat (computeLeafDescendants
      [{ id := "A", text := "a", type_ := "process" },
       { id := "B", text := "b", type_ := "process" },
       { id := "C", text := "c", type_ := "process" }]
      [{ sourceId := "A", targetId := "B", label := none },
       { sourceId := "B", targetId := "C", label := none },
       { sourceId := "C", targetId := "A", label := none }]) "A").getD 0 := by
  have h := leaf_weights_positive
    [{ id := "A", text := "a", type_ := "process" },
     { id := "B", text := "b", type_ := "process" },
     { id := "C", text := "c", type_ := "process" }]
    [{ sourceId := "A", targetId := "B", label := none },
     { sourceId := "B", targetId := "C", label := none },
     { sourceId := "C", targetId := "A", label := none }]
    { id := "A", text := "a", type_ := "process" }
    (by simp) (by simp)
  exact ⟨h.1, h.2.1⟩

end Chartable
namespace Chartable

theorem lnGet_lnAppend_ne (ln : List (Nat × List String)) (lvl k : Nat)
    (id : String) (h : lvl ≠ k) : lnGet (lnAppend ln lvl id) k = lnGet ln k := by
  induction ln with
  | nil =>
    rw [lnAppend, lnGet, lnGet, if_neg]
    · rfl
    · exact h
  | cons p rest ih =>
    rw [lnAppend]
    by_cases hp : p.1 = lvl
    · rw [if_pos hp, lnGet, lnGet, if_neg, if_neg]
      · rw [hp]; exact h
      · rw [hp]; exact h
    · rw [if_neg hp, lnGet, lnGet]
      by_cases hk : p.1 = k
      · rw [if_pos hk, if_pos hk]
      · rw [if_neg hk, if_neg hk]
        exact ih

theorem bfs_preserves_level_zero (conns : List LConn)
    (queue : List (String × Nat)) (visited : Finset String)
    (levels : List (String × Nat)) (ln : List (Nat × List String))
    (hq : ∀ q ∈ queue, 0 < q.2) :
    lnGet (bfs conns queue visited levels ln).2.1 0 = lnGet ln 0 := by
  revert hq
  induction queue, visited, levels, ln using bfs.induct conns with
  | case1 visited levels ln =>
    intro hq
    rw [bfs]
  | case2 visited levels ln id lvl rest hv ih =>
    intro hq
    rw [bfs, dif_pos hv]
    exact ih (fun q hqm => hq q (List.mem_cons_of_mem _ hqm))
  | case3 visited levels ln id lvl rest hv ih =>
    intro hq
    rw [bfs, dif_neg hv]
    have hlvl : 0 < lvl := hq (id, lvl) (List.mem_cons_self _ _)
    have hq2 : ∀ q ∈ rest ++ (nodeOutgoing conns id).map
        (fun e => (e.targetId, lvl + 1)), 0 < q.2 := by
      intro q hqm
      rcases List.mem_append.mp hqm with h1 | h2
      · exact hq q (List.mem_cons_of_mem _ h1)
      · rcases List.mem_map.mp h2 with ⟨e, _, hqe⟩
        rw [← hqe]
        omega
    rw [ih hq2, lnGet_lnAppend_ne _ _ _ _ (by omega)]

end Chartable
namespace Chartable

theorem fillLevels_preserves_ln_zero (b : Nat) (hb : b ≠ 0)
    (vis : Finset String) (l : List LNode) :
    ∀ st : List (String × Nat) × List (Nat × List String),
      lnGet ((l.foldl (fun st n =>
        if n.id ≠ "" ∧ n.id ∉ vis then
          ((n.id, b) :: st.1, lnAppend st.2 b n.id)
        else st) st).2) 0 = lnGet st.2 0 := by
  induction l with
  | nil => intro st; rfl
  | cons a rest ih =>
    intro st
    rw [List.foldl_cons]
    by_cases hc : a.id ≠ "" ∧ a.id ∉ vis
    · rw [if_pos hc, ih]
      exact lnGet_lnAppend_ne _ _ _ _ hb
    · rw [if_neg hc, ih]

/-- C4: in a non-empty node list where every node has at least one incoming
connection, root identification finds no root and forces the first node in
input order to be the sole root, and the level assignment places exactly that
node — and nothing else — at level 0. -/
theorem forced_root_sole_level_zero (nodes : List LNode) (conns : List LConn)
    (hne : nodes ≠ [])
    (hin : ∀ n ∈ nodes, nodeIncoming conns n.id ≠ []) :
    rootNodesOf nodes conns = [(nodes.head hne).id] ∧
    lnGet (assignNodeLevels nodes conns).2 0 = [(nodes.head hne).id] := by
  have hroots : rootNodesOf nodes conns = [(nodes.head hne).id] := by
    unfold rootNodesOf
    have hfil : nodes.filter
        (fun n => decide (n.id ≠ "" ∧ nodeIncoming conns n.id = [])) = [] := by
      rw [List.filter_eq_nil_iff]
      intro n hn
      simp only [decide_eq_true_eq, not_and]
      intro _ hcon
      exact hin n hn hcon
    rw [hfil]
    cases nodes with
    | nil => exact absurd rfl hne
    | cons a rest => rfl
  refine ⟨hroots, ?_⟩
  simp only [assignNodeLevels]
  rw [hroots]
  have hstep : bfs conns ([((nodes.head hne).id, 0)]) ∅ [] [] =
      bfs conns
        ([] ++ (nodeOutgoing conns (nodes.head hne).id).map
          fun e => (e.targetId, 0 + 1))
        (insert (nodes.head hne).id ∅) [((nodes.head hne).id, 0)]
        (lnAppend [] 0 (nodes.head hne).id) := by
    rw [bfs, dif_neg (Finset.not_mem_empty _)]
  simp only [List.map_cons, List.map_nil]
  rw [hstep]
  rw [fillLevels_preserves_ln_zero _ (by omega)]
  rw [bfs_preserves_level_zero]
  · rfl
  · intro q hqm
    rcases List.mem_append.mp hqm with h1 | h2
    · simp at h1
    · rcases List.mem_map.mp h2 with ⟨e, _, hqe⟩
      rw [← hqe]
      omega

end Chartable
namespace Chartable

/-- C4 witness: on the fully cyclic two-node graph A → B → A the first node
is forced to be the sole root and is the only node at level 0. -/
theorem forced_root_sole_level_zero_witness :
    rootNodesOf
      [{ id := "A", text := "a", type_ := "process" },
       { id := "B", text := "b", type_ := "process" }]
      [{ sourceId := "A", targetId := "B", label := none },
       { sourceId := "B", targetId := "A", label := none }] = ["A"] ∧
    lnGet (assignNodeLevels
      [{ id := "A", text := "a", type_ := "process" },
       { id := "B", text := "b", type_ := "process" }]
      [{ sourceId := "A", targetId := "B", label := none },
       { sourceId := "B", targetId := "A", label := none }]).2 0 = ["A"] := by
  have h := forced_root_sole_level_zero
    [{ id := "A", text := "a", type_ := "process" },
     { id := "B", text := "b", type_ := "process" }]
    [{ sourceId := "A", targetId := "B", label := none },
     { sourceId := "B", targetId := "A", label := none }]
    (by decide) (by decide)
  exact h

/-- C5: a decision parent with exactly two children places the yes/true child
left of the parent's x-center and the no/false child right of it when the two
connection labels are conclusive (case-insensitive), defaults to first-left /
second-right otherwise, and always separates the children by
`max(250, leftWeight*100 + rightWeight*100)` centered on the parent's x. -/
theorem decision_branch_placement (c1 c2 : String) (out : List OutEntry)
    (w : String → ℚ) (px : ℚ) :
    (labelIsYes (branchLabel out c1) = true ∧ labelIsNo (branchLabel out c2) = true →
      (positionDecisionBranches (c1, c2) out w px).1.1 = c1 ∧
      (positionDecisionBranches (c1, c2) out w px).2.1 = c2) ∧
    (¬(labelIsYes (branchLabel out c1) = true ∧ labelIsNo (branchLabel out c2) = true) →
      labelIsYes (branchLabel out c2) = true ∧ labelIsNo (branchLabel out c1) = true →
      (positionDecisionBranches (c1, c2) out w px).1.1 = c2 ∧
      (positionDecisionBranches (c1, c2) out w px).2.1 = c1) ∧
    (¬(labelIsYes (branchLabel out c1) = true ∧ labelIsNo (branchLabel out c2) = true) →
      ¬(labelIsYes (branchLabel out c2) = true ∧ labelIsNo (branchLabel out c1) = true) →
      (positionDecisionBranches (c1, c2) out w px).1.1 = c1 ∧
      (positionDecisionBranches (c1, c2) out w px).2.1 = c2) ∧
    (positionDecisionBranches (c1, c2) out w px).1.2 =
      px - max 250 (w (positionDecisionBranches (c1, c2) out w px).1.1 * 100 +
        w (positionDecisionBranches (c1, c2) out w px).2.1 * 100) / 2 ∧
    (positionDecisionBranches (c1, c2) out w px).2.2 =
      px + max 250 (w (positionDecisionBranches (c1, c2) out w px).1.1 * 100 +
        w (positionDecisionBranches (c1, c2) out w px).2.1 * 100) / 2 ∧
    (positionDecisionBranches (c1, c2) out w px).2.2 -
      (positionDecisionBranches (c1, c2) out w px).1.2 =
      max 250 (w (positionDecisionBranches (c1, c2) out w px).1.1 * 100 +
        w (positionDecisionBranches (c1, c2) out w px).2.1 * 100) ∧
    (positionDecisionBranches (c1, c2) out w px).1.2 < px ∧
    px < (positionDecisionBranches (c1, c2) out w px).2.2 ∧
    ((positionDecisionBranches (c1, c2) out w px).1.2 +
      (positionDecisionBranches (c1, c2) out w px).2.2) / 2 = px := by
  have hspos : ∀ a b : ℚ, (0 : ℚ) < max 250 (a + b) := by
    intro a b
    have : (250 : ℚ) ≤ max 250 (a + b) := le_max_left _ _
    linarith
  unfold positionDecisionBranches
  dsimp only
  by_cases h1 : (labelIsYes (branchLabel out c1) && labelIsNo (branchLabel out c2)) = true
  · rw [if_pos h1]
    dsimp only
    rw [Bool.and_eq_true] at h1
    refine ⟨fun _ => ⟨rfl, rfl⟩, fun hn _ => absurd h1 hn, fun hn _ => absurd h1 hn,
      rfl, rfl, by ring, ?_, ?_, by ring⟩
    · have := hspos (w c1 * 100) (w c2 * 100)
      linarith
    · have := hspos (w c1 * 100) (w c2 * 100)
      linarith
  · rw [if_neg h1]
    rw [Bool.and_eq_true] at h1
    by_cases h2 : (labelIsYes (branchLabel out c2) && labelIsNo (branchLabel out c1)) = true
    · rw [if_pos h2]
      dsimp only
      rw [Bool.and_eq_true] at h2
      refine ⟨fun hc => absurd hc h1, fun _ _ => ⟨rfl, rfl⟩, fun _ hn => absurd h2 hn,
        rfl, rfl, by ring, ?_, ?_, by ring⟩
      · have := hspos (w c2 * 100) (w c1 * 100)
        linarith
      · have := hspos (w c2 * 100) (w c1 * 100)
        linarith
    · rw [if_neg h2]
      dsimp only
      rw [Bool.and_eq_true] at h2
      refine ⟨fun hc => absurd hc h1, fun _ hc => absurd hc h2, fun _ _ => ⟨rfl, rfl⟩,
        rfl, rfl, by ring, ?_, ?_, by ring⟩
      · have := hspos (w c1 * 100) (w c2 * 100)
        linarith
      · have := hspos (w c1 * 100) (w c2 * 100)
        linarith

/-- C5 witness: children labeled Yes/No with unit weights around x = 500 are
placed at 375 and 625. -/
theorem decision_branch_placement_witness :
    (positionDecisionBranches ("y", "n")
      [{ targetId := "y", label := "Yes" }, { targetId := "n", label := "No" }]
      (fun _ => 1) 500).1.1 = "y" ∧
    (positionDecisionBranches ("y", "n")
      [{ targetId := "y", label := "Yes" }, { targetId := "n", label := "No" }]
      (fun _ => 1) 500).2.1 = "n" ∧
    (positionDecisionBranches ("y", "n")
      [{ targetId := "y", label := "Yes" }, { targetId := "n", label := "No" }]
      (fun _ => 1) 500).1.2 < 500 ∧
    (500 : ℚ) <
      (positionDecisionBranches ("y", "n")
        [{ targetId := "y", label := "Yes" }, { targetId := "n", label := "No" }]
        (fun _ => 1) 500).2.2 := by
  have h := decision_branch_placement "y" "n"
    [{ targetId := "y", label := "Yes" }, { targetId := "n", label := "No" }]
    (fun _ => 1) 500
  have hc := h.1 (by decide)
  exact ⟨hc.1, hc.2, h.2.2.2.2.2.2.1, h.2.2.2.2.2.2.2.1⟩

end Chartable
namespace Chartable

/-- C7 (counterexample): starting at scale 1 with zero view offset, a zoom-in
wheel event at cursor (100,100) followed by the equal-magnitude opposite
zoom-out at the same cursor yields scale 399/400, not 1 — the pre-zoom scale
and view offset are not restored, and the 1/400 gap is far beyond
floating-point tolerance. -/
theorem wheel_zoom_roundtrip_fails :
    (handleCanvasWheel (handleCanvasWheel 1 (0, 0) (100, 100) (-1)).1
      (handleCanvasWheel 1 (0, 0) (100, 100) (-1)).2 (100, 100) 1).1 =
      399 / 400 ∧
    (handleCanvasWheel (handleCanvasWheel 1 (0, 0) (100, 100) (-1)).1
      (handleCanvasWheel 1 (0, 0) (100, 100) (-1)).2 (100, 100) 1).1 ≠ 1 ∧
    (handleCanvasWheel (handleCanvasWheel 1 (0, 0) (100, 100) (-1)).1
      (handleCanvasWheel 1 (0, 0) (100, 100) (-1)).2 (100, 100) 1).2 ≠ (0, 0) ∧
    |1 - (handleCanvasWheel (handleCanvasWheel 1 (0, 0) (100, 100) (-1)).1
      (handleCanvasWheel 1 (0, 0) (100, 100) (-1)).2 (100, 100) 1).1| =
      1 / 400 := by
  refine ⟨?_, ?_, ?_, ?_⟩ <;> norm_num [handleCanvasWheel]

/-- C7 (amended): because the wheel handler rescales multiplicatively
(`scale + scale*delta` with delta = ±0.05), an in-then-out (or out-then-in)
pair at the same cursor multiplies the scale by (1+0.05)(1-0.05) = 399/400
whenever no clamping occurs (guaranteed for 2/19 ≤ scale ≤ 100/21), so the
pre-zoom scale is never restored. -/
theorem wheel_zoom_roundtrip_scale (s : ℚ) (v m : ℚ × ℚ) (d : ℚ)
    (hd : d ≠ 0) (hlo : 2 / 19 ≤ s) (hhi : s ≤ 100 / 21) :
    (handleCanvasWheel (handleCanvasWheel s v m d).1
      (handleCanvasWheel s v m d).2 m (-d)).1 = 399 / 400 * s ∧
    (handleCanvasWheel (handleCanvasWheel s v m d).1
      (handleCanvasWheel s v m d).2 m (-d)).1 ≠ s := by
  have hs1 : ∀ x : ℚ, 1 / 10 ≤ x → x ≤ 5 → max (1 / 10) (min 5 x) = x := by
    intro x h1 h2
    rw [min_eq_right h2, max_eq_right h1]
  rcases lt_or_gt_of_ne hd with hneg | hpos
  · have hfirst : (handleCanvasWheel s v m d).1 = s * (21 / 20) := by
      unfold handleCanvasWheel
      dsimp only
      rw [if_neg (by linarith : ¬ d > 0)]
      have : s + s * (1 / 20) = s * (21 / 20) := by ring
      rw [this, hs1 _ (by linarith) (by linarith)]
    have hsecond : (handleCanvasWheel (handleCanvasWheel s v m d).1
        (handleCanvasWheel s v m d).2 m (-d)).1 = s * (21 / 20) * (19 / 20) := by
      rw [hfirst]
      unfold handleCanvasWheel
      dsimp only
      rw [if_pos (by linarith : -d > 0)]
      have : s * (21 / 20) + s * (21 / 20) * -(1 / 20) =
        s * (21 / 20) * (19 / 20) := by ring
      rw [this, hs1 _ (by linarith) (by linarith)]
    constructor
    · rw [hsecond]; ring
    · rw [hsecond]
      intro hcon
      have : s * (1 / 400) = 0 := by linarith
      have hs0 : s = 0 := by linarith
      linarith
  · have hfirst : (handleCanvasWheel s v m d).1 = s * (19 / 20) := by
      unfold handleCanvasWheel
      dsimp only
      rw [if_pos hpos]
      have : s + s * -(1 / 20) = s * (19 / 20) := by ring
      rw [this, hs1 _ (by linarith) (by linarith)]
    have hsecond : (handleCanvasWheel (handleCanvasWheel s v m d).1
        (handleCanvasWheel s v m d).2 m (-d)).1 = s * (19 / 20) * (21 / 20) := by
      rw [hfirst]
      unfold handleCanvasWheel
      dsimp only
      rw [if_neg (by linarith : ¬ -d > 0)]
      have : s * (19 / 20) + s * (19 / 20) * (1 / 20) =
        s * (19 / 20) * (21 / 20) := by ring
      rw [this, hs1 _ (by linarith) (by linarith)]
    constructor
    · rw [hsecond]; ring
    · rw [hsecond]
      intro hcon
      have : s * (1 / 400) = 0 := by linarith
      have hs0 : s = 0 := by linarith
      linarith

/-- C7 witness: the amended round-trip factor at scale 1. -/
theorem wheel_zoom_roundtrip_scale_witness :
    (handleCanvasWheel (handleCanvasWheel 1 (0, 0) (100, 100) (-1)).1
      (handleCanvasWheel 1 (0, 0) (100, 100) (-1)).2 (100, 100) (- -1)).1 =
      399 / 400 * 1 ∧
    (handleCanvasWheel (handleCanvasWheel 1 (0, 0) (100, 100) (-1)).1
      (handleCanvasWheel 1 (0, 0) (100, 100) (-1)).2 (100, 100) (- -1)).1 ≠ 1 :=
  wheel_zoom_roundtrip_scale 1 (0, 0) (100, 100) (-1)
    (by norm_num) (by norm_num) (by norm_num)

/-- C8: at scale 1, zero view offset and cursor (100,100), a zoom-in wheel
event whose new scale 21/20 is strictly inside the [0.1, 5] clamp moves the
world coordinate under the cursor (by the handlers' own screen-to-world
transform) from (100,100) to (1900/21, 1900/21): the handler sets the view
offset to the negation of the value that would keep the point fixed, so the
point under the cursor does not stay fixed — the code contradicts its own
"zoom toward mouse position" intent. -/
theorem zoom_moves_world_point_under_cursor :
    screenToWorld 1 (0, 0) (100, 100) = (100, 100) ∧
    (handleCanvasWheel 1 (0, 0) (100, 100) (-1)).1 = 21 / 20 ∧
    (1 / 10 : ℚ) < 21 / 20 ∧ (21 / 20 : ℚ) < 5 ∧
    screenToWorld (handleCanvasWheel 1 (0, 0) (100, 100) (-1)).1
      (handleCanvasWheel 1 (0, 0) (100, 100) (-1)).2 (100, 100) =
      (1900 / 21, 1900 / 21) ∧
    (1900 / 21 : ℚ) ≠ 100 := by
  refine ⟨?_, ?_, ?_, ?_, ?_, ?_⟩ <;>
    norm_num [handleCanvasWheel, screenToWorld]

end Chartable
namespace Chartable

/-- C9 (counterexample): on an empty canvas with an 800 by 600 viewport,
scale 1 and zero pan, `addNode` requested at (5, 7) creates the node at
(325, 160): its center (400, 200) has the viewport-center x but sits at one
third of the viewport height, not at the viewport center (400, 300) — the
node is not centered in the visible viewport. -/
theorem first_node_not_viewport_centered :
    (addNode false [] (800, 600) 1 (0, 0) 0 5 7 "New Node" none).1.x = 325 ∧
    (addNode false [] (800, 600) 1 (0, 0) 0 5 7 "New Node" none).1.y = 160 ∧
    (addNode false [] (800, 600) 1 (0, 0) 0 5 7 "New Node" none).1.x +
      (addNode false [] (800, 600) 1 (0, 0) 0 5 7 "New Node" none).1.width / 2 = 400 ∧
    (addNode false [] (800, 600) 1 (0, 0) 0 5 7 "New Node" none).1.y +
      (addNode false [] (800, 600) 1 (0, 0) 0 5 7 "New Node" none).1.height / 2 = 200 ∧
    viewportCenterWorld (800, 600) 1 (0, 0) = (400, 300) ∧
    (200 : ℚ) ≠ 300 := by
  refine ⟨?_, ?_, ?_, ?_, ?_, ?_⟩ <;>
    norm_num [addNode, viewportCenterWorld, screenToWorld]

/-- C9 (amended): `addNode` on an empty canvas ignores the requested
coordinates and places the node at
x = (rectWidth/2 - 75)/scale - view.x, y = (rectHeight/3 - 40)/scale - view.y;
at scale 1 this centers the node horizontally on the viewport center while
its vertical center sits at one third of the viewport height (the code
deliberately "starts higher on the canvas"). -/
theorem addNode_empty_canvas_placement (isDark : Bool) (rect : ℚ × ℚ)
    (scale : ℚ) (view : ℚ × ℚ) (fresh : Nat) (x y : ℚ) (text : String)
    (style : Option NodeStyle) :
    (addNode isDark [] rect scale view fresh x y text style).1.x =
      (rect.1 / 2 - 75) / scale - view.1 ∧
    (addNode isDark [] rect scale view fresh x y text style).1.y =
      (rect.2 / 3 - 40) / scale - view.2 ∧
    (addNode isDark [] rect scale view fresh x y text style).2 =
      [CanvasElem.node (addNode isDark [] rect scale view fresh x y text style).1] ∧
    (scale = 1 →
      (addNode isDark [] rect scale view fresh x y text style).1.x +
        (addNode isDark [] rect scale view fresh x y text style).1.width / 2 =
        (viewportCenterWorld rect scale view).1) ∧
    (scale = 1 →
      (addNode isDark [] rect scale view fresh x y text style).1.y +
        (addNode isDark [] rect scale view fresh x y text style).1.height / 2 =
        rect.2 / 3 - view.2) := by
  refine ⟨rfl, rfl, rfl, ?_, ?_⟩
  · intro h1
    subst h1
    show (rect.1 / 2 - 75) / 1 - view.1 + 150 / 2 = (viewportCenterWorld rect 1 view).1
    unfold viewportCenterWorld screenToWorld
    dsimp only
    ring
  · intro h1
    subst h1
    show (rect.2 / 3 - 40) / 1 - view.2 + 80 / 2 = rect.2 / 3 - view.2
    ring

/-- C9 witness: the amended placement at scale 1 on an 800 by 600 viewport. -/
theorem addNode_empty_canvas_placement_witness :
    (addNode false [] (800, 600) 1 (0, 0) 0 5 7 "New Node" none).1.x =
      (800 / 2 - 75) / 1 - 0 ∧
    (addNode false [] (800, 600) 1 (0, 0) 0 5 7 "New Node" none).1.x +
      (addNode false [] (800, 600) 1 (0, 0) 0 5 7 "New Node" none).1.width / 2 =
      (viewportCenterWorld (800, 600) 1 (0, 0)).1 := by
  have h := addNode_empty_canvas_placement false (800, 600) 1 (0, 0) 0 5 7
    "New Node" none
  exact ⟨h.1, h.2.2.2.1 rfl⟩

end Chartable
namespace Chartable

theorem findNode_some {els : List CanvasElem} {p : CanvasNode → Bool}
    {n : CanvasNode} (h : findNode els p = some n) : p n = true := by
  induction els with
  | nil => simp [findNode] at h
  | cons e rest ih =>
    cases e with
    | node a =>
      rw [findNode] at h
      by_cases hp : p a
      · rw [if_pos hp] at h
        rw [← Option.some_inj.mp h]
        exact hp
      · rw [if_neg hp] at h
        exact ih h
    | conn c =>
      rw [findNode] at h
      exact ih h

theorem connsOk_append (a b : List CanvasElem) :
    connsOk (a ++ b) = (connsOk a && connsOk b) := by
  unfold connsOk
  exact List.all_append

theorem connsOk_map_drag (els : List CanvasElem) (sel : String) (wx wy : ℚ) :
    connsOk (els.map fun el =>
      match el with
      | CanvasElem.node n =>
        if n.id = sel then CanvasElem.node { n with x := wx, y := wy } else el
      | CanvasElem.conn _ => el) = connsOk els := by
  induction els with
  | nil => rfl
  | cons e rest ih =>
    cases e with
    | node a =>
      rw [List.map_cons]
      unfold connsOk at ih ⊢
      rw [List.all_cons, List.all_cons, ih]
      by_cases hid : a.id = sel
      · rw [show (match CanvasElem.node a with
          | CanvasElem.node n =>
            if n.id = sel then
              CanvasElem.node { n with x := wx, y := wy }
            else CanvasElem.node n
          | CanvasElem.conn _ => CanvasElem.node a) =
            CanvasElem.node { a with x := wx, y := wy } from by
          dsimp only
          rw [if_pos hid]]
      · rw [show (match CanvasElem.node a with
          | CanvasElem.node n =>
            if n.id = sel then
              CanvasElem.node { n with x := wx, y := wy }
            else CanvasElem.node n
          | CanvasElem.conn _ => CanvasElem.node a) =
            CanvasElem.node a from by
          dsimp only
          rw [if_neg hid]]
    | conn c =>
      rw [List.map_cons]
      unfold connsOk at ih ⊢
      rw [List.all_cons, List.all_cons, ih]

end Chartable
namespace Chartable

end Chartable
namespace Chartable

theorem step_preserves_inv (rl rt : ℚ) (dk : Bool) (s : EditorState)
    (e : CEvent)
    (h1 : s.isDrawingConnection = false → s.currentConnection = none)
    (h2 : ∀ cc cs t, s.currentConnection = some cc →
      s.connectionStart = some cs → cc.targetNodeId = some t → t ≠ cs.id)
    (h3 : connsOk s.elements = true)
    (hd : ∀ nodeId pos, e = CEvent.handleDown nodeId pos →
      s.isDrawingConnection = false) :
    ((step rl rt dk s e).isDrawingConnection = false →
      (step rl rt dk s e).currentConnection = none) ∧
    (∀ cc cs t, (step rl rt dk s e).currentConnection = some cc →
      (step rl rt dk s e).connectionStart = some cs →
      cc.targetNodeId = some t → t ≠ cs.id) ∧
    connsOk (step rl rt dk s e).elements = true := by
  cases e with
  | canvasDown cx cy button =>
    simp only [step]
    by_cases hb : button ≠ 0
    · rw [if_pos hb]
      exact ⟨h1, h2, h3⟩
    · rw [if_neg hb]
      by_cases hcm : s.contextMenuPosition.isSome = true <;>
        [rw [if_pos hcm]; rw [if_neg hcm]] <;>
        rcases hfind : findNode s.elements
          (isPointInNode (screenToWorld s.scale s.viewPosition
            (cx - rl, cy - rt)).1
            (screenToWorld s.scale s.viewPosition (cx - rl, cy - rt)).2)
          with _ | n <;>
        dsimp only <;>
        exact ⟨h1, h2, h3⟩
  | canvasMove cx cy =>
    simp only [step]
    by_cases hdrag : s.isDraggingElement = true ∧ s.selectedElement.isSome = true
    · rw [if_pos hdrag]
      rcases hsel : s.selectedElement with _ | sel <;> dsimp only
      · exact ⟨h1, h2, h3⟩
      · rcases hfind : findNode s.elements (fun n => n.id == sel)
          with _ | n <;> dsimp only
        · exact ⟨h1, h2, h3⟩
        · refine ⟨h1, h2, ?_⟩
          rw [connsOk_map_drag]
          exact h3
    · rw [if_neg hdrag]
      by_cases hpan : s.isDraggingCanvas = true
      · rw [if_pos hpan]
        exact ⟨h1, h2, h3⟩
      · rw [if_neg hpan]
        by_cases hdraw : s.isDrawingConnection = true
        · rw [if_pos hdraw]
          rcases hcs : s.connectionStart with _ | cs <;> dsimp only
          · exact ⟨h1, fun cc cs t hcc habs => absurd habs (by simp), h3⟩
          · rcases hfind : findNode s.elements
              (fun n => n.id != cs.id &&
                isPointInNode (screenToWorld s.scale s.viewPosition
                  (cx - rl, cy - rt)).1
                  (screenToWorld s.scale s.viewPosition (cx - rl, cy - rt)).2 n)
              with _ | hn <;> dsimp only
            · refine ⟨?_, ?_, h3⟩
              · intro hfalse
                rw [hdraw] at hfalse
                exact absurd hfalse (by simp)
              · intro cc cs' t hcc hcs' ht
                rw [← Option.some_inj.mp hcc] at ht
                simp at ht
            · refine ⟨?_, ?_, h3⟩
              · intro hfalse
                rw [hdraw] at hfalse
                exact absurd hfalse (by simp)
              · intro cc cs' t hcc hcs' ht
                rw [← Option.some_inj.mp hcc] at ht
                dsimp only at ht
                have hne := findNode_some hfind
                rw [Bool.and_eq_true] at hne
                rw [← Option.some_inj.mp ht]
                rw [← Option.some_inj.mp hcs']
                simpa using hne.1
        · rw [if_neg hdraw]
          exact ⟨h1, h2, h3⟩
  | canvasUp =>
    simp only [step]
    by_cases hcond : s.isDrawingConnection = true ∧
        s.connectionStart.isSome = true ∧ s.currentConnection.isSome = true
    · rw [if_pos hcond]
      rcases hcs : s.connectionStart with _ | cs <;>
        rcases hcc : s.currentConnection with _ | cc <;> dsimp only
      · refine ⟨?_, ?_, h3⟩ <;> intros <;> simp_all
      · refine ⟨?_, ?_, h3⟩ <;> intros <;> simp_all
      · refine ⟨?_, ?_, h3⟩ <;> intros <;> simp_all
      · rcases ht : cc.targetNodeId with _ | t <;> dsimp only
        · refine ⟨fun _ => rfl, ?_, h3⟩
          intro cc' cs' t' hcc'
          simp at hcc'
        · refine ⟨fun _ => rfl, ?_, ?_⟩
          · intro cc' cs' t' hcc'
            simp at hcc'
          · rw [connsOk_append, Bool.and_eq_true]
            refine ⟨h3, ?_⟩
            have hne := h2 cc cs t hcc hcs ht
            simp only [connsOk, List.all_cons, List.all_nil, Bool.and_true]
            simpa using fun hcontra => hne hcontra.symm
    · rw [if_neg hcond]
      exact ⟨h1, h2, h3⟩
  | handleDown nodeId pos =>
    have hnd := hd nodeId pos rfl
    have hccnone := h1 hnd
    simp only [step]
    rcases hfind : findNode s.elements (fun n => n.id == nodeId)
      with _ | n <;> dsimp only
    · exact ⟨h1, h2, h3⟩
    · refine ⟨?_, ?_, h3⟩
      · intro hfalse
        simp at hfalse
      · intro cc cs t hcc
        rw [hccnone] at hcc
        simp at hcc
  | wheel cx cy deltaY =>
    simp only [step]
    exact ⟨h1, h2, h3⟩

end Chartable
namespace Chartable

end Chartable
namespace Chartable

theorem selfLoop_step1 :
    step 0 0 false
      (initialState [CanvasElem.node exampleNodeA, CanvasElem.node exampleNodeB])
      (CEvent.handleDown "A" HandlePos.bottom) =
    { initialState [CanvasElem.node exampleNodeA, CanvasElem.node exampleNodeB] with
      isDrawingConnection := true,
      connectionStart := some { id := "A", x := 75, y := 80 } } := by
  norm_num [step, initialState, findNode, exampleNodeA, exampleNodeB]

end Chartable

namespace Chartable

theorem selfLoop_step2 :
    step 0 0 false
      { initialState [CanvasElem.node exampleNodeA, CanvasElem.node exampleNodeB] with
        isDrawingConnection := true,
        connectionStart := some { id := "A", x := 75, y := 80 } }
      (CEvent.canvasMove 310 310) =
    { initialState [CanvasElem.node exampleNodeA, CanvasElem.node exampleNodeB] with
      isDrawingConnection := true,
      connectionStart := some { id := "A", x := 75, y := 80 },
      mousePosition := (310, 310),
      currentConnection := some
        { start := { id := "A", x := 75, y := 80 },
          endPos := (375, 300), targetNodeId := some "B" } } := by
  norm_num [step, initialState, findNode, exampleNodeA, exampleNodeB,
    isPointInNode, screenToWorld]
  rw [if_neg (show ¬ ("B" : String) = "A" by decide)]
  norm_num

theorem selfLoop_step3 :
    step 0 0 false
      { initialState [CanvasElem.node exampleNodeA, CanvasElem.node exampleNodeB] with
        isDrawingConnection := true,
        connectionStart := some { id := "A", x := 75, y := 80 },
        mousePosition := (310, 310),
        currentConnection := some
          { start := { id := "A", x := 75, y := 80 },
            endPos := (375, 300), targetNodeId := some "B" } }
      (CEvent.handleDown "B" HandlePos.top) =
    { initialState [CanvasElem.node exampleNodeA, CanvasElem.node exampleNodeB] with
      isDrawingConnection := true,
      connectionStart := some { id := "B", x := 375, y := 300 },
      mousePosition := (310, 310),
      currentConnection := some
        { start := { id := "A", x := 75, y := 80 },
          endPos := (375, 300), targetNodeId := some "B" } } := by
  norm_num [step, initialState, findNode, exampleNodeA, exampleNodeB]
  rw [if_neg (show ¬ ("A" : String) = "B" by decide)]
  norm_num

theorem selfLoop_step4 :
    step 0 0 false
      { initialState [CanvasElem.node exampleNodeA, CanvasElem.node exampleNodeB] with
        isDrawingConnection := true,
        connectionStart := some { id := "B", x := 375, y := 300 },
        mousePosition := (310, 310),
        currentConnection := some
          { start := { id := "A", x := 75, y := 80 },
            endPos := (375, 300), targetNodeId := some "B" } }
      CEvent.canvasUp =
    { initialState [CanvasElem.node exampleNodeA, CanvasElem.node exampleNodeB] with
      elements := [CanvasElem.node exampleNodeA, CanvasElem.node exampleNodeB,
        CanvasElem.conn
          { id := "connection-0", sourceId := "B", targetId := "B",
            style := { strokeColor := "#64748b", strokeWidth := 2,
                       arrowType := "triangle", lineStyle := "orthogonal",
                       cornerRadius := 12 } }],
      connectionStart := some { id := "B", x := 375, y := 300 },
      mousePosition := (310, 310),
      fresh := 1, isDirty := true } := by
  norm_num [step, initialState, exampleNodeA, exampleNodeB]
  decide

/-- C10 (counterexample): the event trace "mouse-down on A's bottom handle,
hover over B, mouse-down on B's top handle (the first draw's mouse-up was
never delivered — released outside the window, or a second button pressed),
mouse-up" commits the connection B → B: an interactively drawn self-loop,
refuting the claim. -/
theorem self_loop_commit_trace :
    hasSelfLoop (runEvents 0 0 false
      (initialState [CanvasElem.node exampleNodeA, CanvasElem.node exampleNodeB])
      selfLoopTrace).elements = true ∧
    connsOk
      (initialState [CanvasElem.node exampleNodeA,
        CanvasElem.node exampleNodeB]).elements = true := by
  constructor
  · have hrun : runEvents 0 0 false
        (initialState [CanvasElem.node exampleNodeA, CanvasElem.node exampleNodeB])
        selfLoopTrace =
        step 0 0 false (step 0 0 false (step 0 0 false (step 0 0 false
          (initialState [CanvasElem.node exampleNodeA, CanvasElem.node exampleNodeB])
          (CEvent.handleDown "A" HandlePos.bottom))
          (CEvent.canvasMove 310 310))
          (CEvent.handleDown "B" HandlePos.top))
          CEvent.canvasUp := rfl
    rw [hrun, selfLoop_step1, selfLoop_step2, selfLoop_step3, selfLoop_step4]
    decide
  · decide

end Chartable

namespace Chartable

theorem stateInv_eq_true (s : EditorState) :
    stateInv s = true ↔
      ((s.isDrawingConnection = false → s.currentConnection = none) ∧
       (∀ cc cs t, s.currentConnection = some cc →
         s.connectionStart = some cs → cc.targetNodeId = some t → t ≠ cs.id) ∧
       connsOk s.elements = true) := by
  unfold stateInv
  rcases hcc : s.currentConnection with _ | cc <;>
    rcases hcs : s.connectionStart with _ | cs <;>
    dsimp only <;>
    simp only [Bool.and_eq_true, decide_eq_true_eq, Bool.not_eq_true']
  · constructor
    · rintro ⟨⟨h1, -⟩, h3⟩
      exact ⟨h1, fun cc cs t hc _ _ => absurd hc (by simp), h3⟩
    · rintro ⟨h1, -, h3⟩
      exact ⟨⟨h1, trivial⟩, h3⟩
  · constructor
    · rintro ⟨⟨h1, -⟩, h3⟩
      exact ⟨h1, fun cc cs1 t hc _ _ => absurd hc (by simp), h3⟩
    · rintro ⟨h1, -, h3⟩
      exact ⟨⟨h1, trivial⟩, h3⟩
  · constructor
    · rintro ⟨⟨h1, -⟩, h3⟩
      exact ⟨h1, fun cc1 cs t _ hc _ => absurd hc (by simp), h3⟩
    · rintro ⟨h1, -, h3⟩
      exact ⟨⟨h1, trivial⟩, h3⟩
  · rcases ht : cc.targetNodeId with _ | t
    · constructor
      · rintro ⟨⟨h1, -⟩, h3⟩
        refine ⟨h1, ?_, h3⟩
        intro cc1 cs1 t1 hcc1 hcs1 ht1
        rw [← Option.some_inj.mp hcc1, ht] at ht1
        exact absurd ht1 (by simp)
      · rintro ⟨h1, -, h3⟩
        exact ⟨⟨h1, rfl⟩, h3⟩
    · constructor
      · rintro ⟨⟨h1, h2⟩, h3⟩
        refine ⟨h1, ?_, h3⟩
        intro cc1 cs1 t1 hcc1 hcs1 ht1
        rw [← Option.some_inj.mp hcc1, ht] at ht1
        rw [← Option.some_inj.mp ht1, ← Option.some_inj.mp hcs1]
        exact bne_iff_ne.mp h2
      · rintro ⟨h1, h2, h3⟩
        exact ⟨⟨h1, bne_iff_ne.mpr (h2 cc cs t rfl rfl ht)⟩, h3⟩

theorem runEvents_preserves_inv (rl rt : ℚ) (dk : Bool) (evs : List CEvent) :
    ∀ s : EditorState, stateInv s = true →
      noMidDrawStarts rl rt dk s evs = true →
      stateInv (runEvents rl rt dk s evs) = true := by
  induction evs with
  | nil =>
    intro s hinv _
    exact hinv
  | cons e rest ih =>
    intro s hinv htr
    have hprev := (stateInv_eq_true s).mp hinv
    have htr2 : noMidDrawStarts rl rt dk (step rl rt dk s e) rest = true := by
      cases e <;>
        rw [noMidDrawStarts, Bool.and_eq_true] at htr <;>
        first
          | exact htr.2
          | (intro nodeId pos h
             exact CEvent.noConfusion h)
    have hd : ∀ nodeId pos, e = CEvent.handleDown nodeId pos →
        s.isDrawingConnection = false := by
      intro nodeId pos he
      subst he
      rw [noMidDrawStarts, Bool.and_eq_true] at htr
      simpa using htr.1
    have hstep := step_preserves_inv rl rt dk s e hprev.1 hprev.2.1 hprev.2.2 hd
    have hinv2 : stateInv (step rl rt dk s e) = true :=
      (stateInv_eq_true _).mpr hstep
    have hrun : runEvents rl rt dk s (e :: rest) =
        runEvents rl rt dk (step rl rt dk s e) rest := rfl
    rw [hrun]
    exact ih _ hinv2 htr2

/-- C10 (amended): provided no connection draw is started while another is in
progress (every handle mouse-down arrives with `isDrawingConnection` false —
the normal browser interaction), every connection present after any event
sequence has `sourceId ≠ targetId`, because the hover search excludes the
draw's start node; without that proviso a second handle mouse-down can reuse
the stale hover target and commit a self-loop (see the counterexample
trace). -/
theorem no_self_loop_without_mid_draw_start (rl rt : ℚ) (dk : Bool)
    (s : EditorState) (evs : List CEvent)
    (hinv : stateInv s = true)
    (htr : noMidDrawStarts rl rt dk s evs = true) :
    connsOk (runEvents rl rt dk s evs).elements = true :=
  ((stateInv_eq_true _).mp (runEvents_preserves_inv rl rt dk evs s hinv htr)).2.2

/-- C10 witness: the ordinary draw trace (down on A's handle, hover over B,
release) yields only connections with distinct endpoints. -/
theorem no_self_loop_witness :
    connsOk (runEvents 0 0 false
      (initialState [CanvasElem.node exampleNodeA, CanvasElem.node exampleNodeB])
      simpleDrawTrace).elements = true := by
  apply no_self_loop_without_mid_draw_start
  · decide
  · show noMidDrawStarts 0 0 false
      (initialState [CanvasElem.node exampleNodeA, CanvasElem.node exampleNodeB])
      simpleDrawTrace = true
    simp only [simpleDrawTrace, noMidDrawStarts, selfLoop_step1, selfLoop_step2,
      Bool.and_eq_true]
    exact ⟨by decide, trivial, trivial, trivial⟩

end Chartable
